import Mathlib

/-!
# Orders plugin: DemoService, OrdersPlugin lifecycle and the event bus contract

Shallow embedding of `src/src/demo_service.cpp`, `src/include/demo_service.h` and of
`stop` and `registerRoutes` of `src/src/orders_plugin.cpp`, together with a model of the
event bus the plugin talks to.

Conventions of the embedding

* A `QString` is a Lean `String` (a sequence of characters); Qt's distinction between a
  null and an empty string is not represented.
* A `QVariant` is a closed tagged union; floating point payloads are left out.
* A `QVariantMap` (`QMap<QString, QVariant>`) is an association list kept in key order.
* A member function becomes a function from the object state to the new state and the
  list of observable effects (signals emitted, calls made on collaborators), in program
  order.
* `QDateTime::currentDateTime()` is an input of the function that reads it.
* Log macros (`MPF_LOG_*`) have no effect on the state and are not part of the trace.
-/

namespace orders

/-! ## Qt value types -/

/-- The dynamically typed value `QVariant`, restricted to the payload shapes used with
the bus. -/
inductive QVariant where
  | invalid : QVariant
  | bool : Bool → QVariant
  | int : Int → QVariant
  | string : String → QVariant
  | list : List QVariant → QVariant
  | map : List (String × QVariant) → QVariant

/-- The type `QVariantMap`, that is `QMap<QString, QVariant>`. -/
abbrev QVariantMap := List (String × QVariant)

/-- The type `QVariantList`, that is `QList<QVariant>`. -/
abbrev QVariantList := List QVariant

/-- The conversion `QVariant::toString()`: strings convert to themselves, booleans and
integers to their text, everything else to the empty string. -/
def QVariant.toString : QVariant → String
  | .invalid => ""
  | .bool b => if b then "true" else "false"
  | .int n => ToString.toString n
  | .string s => s
  | .list _ => ""
  | .map _ => ""

/-- The lookup `QMap::value(key, defaultValue)`. -/
def QVariantMap.value : QVariantMap → String → QVariant → QVariant
  | [], _, dflt => dflt
  | (k, v) :: rest, key, dflt => if k = key then v else QVariantMap.value rest key dflt

/-- The predicate `QMap::contains(key)`. -/
def QVariantMap.contains : QVariantMap → String → Bool
  | [], _ => false
  | (k, _) :: rest, key => if k = key then true else QVariantMap.contains rest key

/-- The assignment `map[key] = v`: replaces the value of an existing key, otherwise
inserts the pair at its place in key order. -/
def QVariantMap.insert : QVariantMap → String → QVariant → QVariantMap
  | [], key, v => [(key, v)]
  | (k, w) :: rest, key, v =>
    if key.data < k.data then (key, v) :: (k, w) :: rest
    else if key = k then (key, v) :: rest
    else (k, w) :: QVariantMap.insert rest key v

/-- The test `QString::startsWith(prefix)` with the default, case-sensitive comparison. -/
def startsWith (s pre : String) : Bool :=
  pre.data.isPrefixOf s.data

/-- The implicit conversion of a container size (`qsizetype`) to `int`. -/
def toInt32 (n : Nat) : Int :=
  let m : Nat := n % 2 ^ 32
  if m < 2 ^ 31 then (m : Int) else (m : Int) - 2 ^ 32

/-! ## JSON parsing (Qt library, taken as a parameter) -/

/-- The parse status `QJsonParseError`: `error` is the error code (`NoError` is 0) and
`errorString` the parser's message for it. -/
structure QJsonParseError where
  error : Nat
  errorString : String

/-- The error code `QJsonParseError::NoError`. -/
def QJsonParseError.NoError : Nat := 0

/-- A parsed `QJsonDocument`; `object` is what `QJsonDocument::object()` returns (the
empty object when the document is not an object). -/
structure QJsonDocument where
  object : QVariantMap

/-- The Qt function `QJsonDocument::fromJson(bytes, &parseError)`, a parameter of the
embedding. -/
abbrev JsonParser := String → QJsonDocument × QJsonParseError

/-! ## Observable effects -/

/-- The record `mpf::MenuItem` as `registerRoutes` fills it. -/
structure MenuItem where
  id : String
  label : String
  icon : String
  route : String
  pluginId : String
  order : Int
  group : String

/-- What a member function does besides updating its object: signals it emits and calls
it makes on its collaborators (the request timer, the HTTP client, the event bus, the
navigation and menu services). -/
inductive Effect where
  | emitMessagesChanged : Effect
  | emitHttpResponseReceived (success : Bool) (statusCode : Int) (body : String)
      (elapsedMs : Int) : Effect
  | requestTimerStart : Effect
  | httpGet (url : String) : Effect
  | httpPostJson (url : String) (body : QVariantMap) : Effect
  | connectReplyFinished : Effect
  | connectEventPublished : Effect
  | busSubscribeSimple (pattern subscriberId : String) : Effect
  | busUnsubscribe (subscriptionId : Nat) : Effect
  | busUnsubscribeAll (subscriberId : String) : Effect
  | navRegisterRoute (route url : String) : Effect
  | menuRegisterItem (item : MenuItem) : Effect
  | menuSetBadge (id text : String) : Effect
  | connectOrdersChanged : Effect

/-- Whether an effect is the emission of a signal of `DemoService`. -/
def Effect.isSignal : Effect → Bool
  | .emitMessagesChanged => true
  | .emitHttpResponseReceived _ _ _ _ => true
  | _ => false

/-- Whether an effect is the emission of `messagesChanged`. -/
def Effect.isMessagesChanged : Effect → Bool
  | .emitMessagesChanged => true
  | _ => false

/-- Whether an effect is a request handed to the HTTP client. -/
def Effect.isHttpRequest : Effect → Bool
  | .httpGet _ => true
  | .httpPostJson _ _ => true
  | _ => false

/-- Whether an effect is a route registration on the navigation service. -/
def Effect.isRegisterRoute : Effect → Bool
  | .navRegisterRoute _ _ => true
  | _ => false

/-- Whether an effect removes subscriptions from the bus. -/
def Effect.isUnsubscribe : Effect → Bool
  | .busUnsubscribe _ => true
  | .busUnsubscribeAll _ => true
  | _ => false

/-! ## DemoService -/

/-- The data members of `DemoService` that its logic reads and writes. -/
structure DemoService where
  m_receivedMessages : QVariantList
  m_pluginId : String
  m_topicPrefix : String

namespace DemoService

/-- The constant `DemoService::MAX_MESSAGES`. -/
def MAX_MESSAGES : Nat := 50

/-- The constructor `DemoService(pluginId, parent)`. -/
def new (pluginId : String) : DemoService :=
  { m_receivedMessages := [], m_pluginId := pluginId, m_topicPrefix := "" }

/-- The destructor, `= default`: it makes no call on the bus. -/
def destroy (_self : DemoService) : List Effect := []

/-- The getter `receivedMessages()`. -/
def receivedMessages (self : DemoService) : QVariantList :=
  self.m_receivedMessages

/-- The getter `messageCount()`. -/
def messageCount (self : DemoService) : Int :=
  toInt32 self.m_receivedMessages.length

/-- The method `clearMessages()`. -/
def clearMessages (self : DemoService) : DemoService × List Effect :=
  ({ self with m_receivedMessages := [] }, [Effect.emitMessagesChanged])

/-- The method `connectToEventBus(eventBusObj, topicPrefix)`. -/
def connectToEventBus (self : DemoService) (topicPrefix : String) :
    DemoService × List Effect :=
  let pattern := topicPrefix ++ "**"
  ({ self with m_topicPrefix := topicPrefix },
   [Effect.connectEventPublished,
    Effect.busSubscribeSimple pattern (self.m_pluginId ++ ".demo")])

/-- The loop `while (m_receivedMessages.size() > MAX_MESSAGES) removeLast();`, with the
number of iterations still allowed as first argument. -/
def capLoop : Nat → QVariantList → QVariantList
  | 0, msgs => msgs
  | fuel + 1, msgs =>
    if msgs.length > MAX_MESSAGES then capLoop fuel msgs.dropLast else msgs

/-- The message map built by `onEventReceived` for an accepted event. -/
def buildMessage (now topic : String) (data : QVariantMap) (senderId : String) :
    QVariantMap :=
  let msg : QVariantMap := []
  let msg := msg.insert "topic" (QVariant.string topic)
  let msg := msg.insert "data" (QVariant.map data)
  let msg := msg.insert "senderId" (QVariant.string senderId)
  let msg := msg.insert "timestamp" (QVariant.string now)
  let msg := msg.insert "message"
    (QVariant.string (data.value "message" (QVariant.string "")).toString)
  msg

/-- The slot `onEventReceived(topic, data, senderId)`; `now` is the formatted current
time. -/
def onEventReceived (self : DemoService) (now topic : String) (data : QVariantMap)
    (senderId : String) : DemoService × List Effect :=
  if !startsWith topic self.m_topicPrefix then (self, [])
  else if senderId = self.m_pluginId then (self, [])
  else
    let msg := buildMessage now topic data senderId
    let msgs := QVariant.map msg :: self.m_receivedMessages
    let msgs := capLoop msgs.length msgs
    ({ self with m_receivedMessages := msgs }, [Effect.emitMessagesChanged])

/-- The narrowing `static_cast<int>` of a 64-bit value: the value modulo 2^32, read as a
signed 32-bit integer. -/
def castToInt (v : Int) : Int :=
  (v + 2 ^ 31) % 2 ^ 32 - 2 ^ 31

/-- What the reply handler reads from a finished `QNetworkReply`: the error code
(`QNetworkReply::NoError` is 0), the HTTP status attribute, the error string and the
bytes read, decoded as UTF-8. -/
structure QNetworkReply where
  error : Nat
  statusCode : Int
  errorString : String
  readAll : String

/-- The handler that `testGet` and `testPost` connect to `QNetworkReply::finished`;
`timerElapsed` is the 64-bit reading `m_requestTimer.elapsed()`. -/
def replyFinished (reply : QNetworkReply) (timerElapsed : Int) : List Effect :=
  let elapsed : Int := castToInt timerElapsed
  let success : Bool := reply.error = 0
  let body : String :=
    if success then reply.readAll
    else "Error: " ++ reply.errorString ++ "\n" ++ reply.readAll
  [Effect.emitHttpResponseReceived success reply.statusCode body elapsed]

/-- The method `testGet(url)` up to its return; the reply handler runs later. -/
def testGet (_self : DemoService) (url : String) : List Effect :=
  [Effect.requestTimerStart, Effect.httpGet url, Effect.connectReplyFinished]

/-- The method `testPost(url, jsonBody)` up to its return; the reply handler runs
later. -/
def testPost (_self : DemoService) (fromJson : JsonParser) (url jsonBody : String) :
    List Effect :=
  let (doc, parseError) := fromJson jsonBody
  if parseError.error ≠ QJsonParseError.NoError then
    [Effect.requestTimerStart,
     Effect.emitHttpResponseReceived false 0
       ("JSON parse error: " ++ parseError.errorString) 0]
  else
    [Effect.requestTimerStart, Effect.httpPostJson url doc.object,
     Effect.connectReplyFinished]

/-- One call a client can make on a `DemoService` that changes its message state. -/
inductive Call where
  | onEventReceived (now topic : String) (data : QVariantMap) (senderId : String) : Call
  | clearMessages : Call
  | connectToEventBus (topicPrefix : String) : Call

/-- Whether a call is `connectToEventBus`, the only one that sets the topic prefix. -/
def Call.isConnect : Call → Bool
  | .connectToEventBus _ => true
  | _ => false

/-- The state after one call. -/
def step (self : DemoService) : Call → DemoService
  | .onEventReceived now topic data senderId =>
    (self.onEventReceived now topic data senderId).1
  | .clearMessages => self.clearMessages.1
  | .connectToEventBus topicPrefix => (self.connectToEventBus topicPrefix).1

/-- The state after a sequence of calls, first call first. -/
def run (self : DemoService) : List Call → DemoService
  | [] => self
  | c :: cs => run (self.step c) cs

end DemoService

/-! ## OrdersPlugin lifecycle -/

namespace OrdersPlugin

/-- The method `OrdersPlugin::stop()`: it logs and returns; it makes no call on the bus
and none on its services. -/
def stop : List Effect := []

/-- What `registerRoutes` reads from its surroundings: the two environment variables,
the application directory, and the Qt functions it calls (`QDir::listSeparator`,
`QDir::cleanPath`, `QFile::exists`, `QUrl::fromLocalFile(..).toString()`, `tr`). -/
structure Env where
  QML_IMPORT_PATH : String
  MPF_SDK_ROOT : String
  applicationDirPath : String
  listSeparator : Char
  cleanPath : String → String
  fileExists : String → Bool
  fromLocalFile : String → String
  tr : String → String

/-- The pieces of a character sequence between occurrences of a separator, empty pieces
included. -/
def splitOn (sep : Char) : List Char → List (List Char)
  | [] => [[]]
  | c :: cs =>
    if c = sep then [] :: splitOn sep cs
    else
      match splitOn sep cs with
      | [] => [[c]]
      | piece :: pieces => (c :: piece) :: pieces

/-- The call `QString::split(sep, Qt::SkipEmptyParts)`. -/
def splitSkipEmptyParts (sep : Char) (s : String) : List String :=
  ((splitOn sep s.data).filter (fun piece => !piece.isEmpty)).map String.mk

/-- The list `searchPaths` that `registerRoutes` builds, highest priority first. -/
def searchPaths (env : Env) : List String :=
  let paths := splitSkipEmptyParts env.listSeparator env.QML_IMPORT_PATH
  let paths :=
    if env.MPF_SDK_ROOT ≠ "" then paths ++ [env.cleanPath (env.MPF_SDK_ROOT ++ "/qml")]
    else paths
  let paths := paths ++ [env.cleanPath (env.applicationDirPath ++ "/../qml")]
  paths ++ [env.cleanPath (env.applicationDirPath ++ "/qml")]

/-- The candidate file that the loop of `registerRoutes` tests for a base path. -/
def candidate (env : Env) (basePath : String) : String :=
  env.cleanPath (basePath ++ "/YourCo/Orders/OrdersPage.qml")

/-- The loop `for (basePath : searchPaths) ... break;` of `registerRoutes`: the pair
`(qmlBase, qmlFile)` after it, both empty when no candidate exists. -/
def scanSearchPaths (env : Env) : List String → String × String
  | [] => ("", "")
  | basePath :: rest =>
    if env.fileExists (candidate env basePath) then
      (env.cleanPath (basePath ++ "/YourCo/Orders"), candidate env basePath)
    else scanSearchPaths env rest

/-- The menu half of `registerRoutes`; `menu` is absent when the service is not
registered, otherwise it is the answer of `registerItem`. -/
def registerMenu (env : Env) (menu : Option (MenuItem → Bool)) (orderCount : Int) :
    List Effect :=
  match menu with
  | some registerItem =>
    let item : MenuItem :=
      { id := "orders", label := env.tr "Orders", icon := "📦", route := "orders",
        pluginId := "com.yourco.orders", order := 10, group := "Business" }
    if !registerItem item then [Effect.menuRegisterItem item]
    else
      [Effect.menuRegisterItem item,
       Effect.menuSetBadge "orders" (ToString.toString orderCount),
       Effect.connectOrdersChanged]
  | none => []

/-- The method `OrdersPlugin::registerRoutes()`; `navAvailable` tells whether the
registry holds a navigation service, `orderCount` is `getOrderCount()`. -/
def registerRoutes (env : Env) (navAvailable : Bool) (menu : Option (MenuItem → Bool))
    (orderCount : Int) : List Effect :=
  if navAvailable then
    let found := scanSearchPaths env (searchPaths env)
    if found.2 = "" then []
    else
      Effect.navRegisterRoute "orders" (env.fromLocalFile found.2) ::
        registerMenu env menu orderCount
  else registerMenu env menu orderCount

end OrdersPlugin

/-! ## The event bus

The bus implementation lives in the plugin host, not in this repository's sources; the
plugin only calls it. Its operations are modelled from the specification (sections 3,
4.1 to 4.4 and 7). Subscription ids are opaque strings in the specification and are
numbered here. -/

/-- Modelled from the spec: the splitting of a topic or pattern on the delimiter `/`
(section 4.1, "split both strings into ordered segment sequences"); the matcher's
source is missing. -/
def splitSegments : List Char → List (List Char)
  | [] => [[]]
  | c :: cs =>
    if c = '/' then [] :: splitSegments cs
    else
      match splitSegments cs with
      | [] => [[c]]
      | seg :: segs => (c :: seg) :: segs

/-- Modelled from the spec: the segments of a topic or pattern string (section 4.1);
the matcher's source is missing. -/
def segments (s : String) : List String :=
  (splitSegments s.data).map String.mk

/-- Modelled from the spec: one pattern segment against one topic segment (section 4.1:
`*` matches any single segment, a literal matches a byte-equal segment); the matcher's
source is missing. -/
def segmentMatches (p t : String) : Bool :=
  p = "*" || p = t

/-- Modelled from the spec: the single left-to-right pass of the Topic Matcher over the
two segment sequences (section 4.1); the matcher's source is missing. A `**` is the
multi-level wildcard only as last pattern segment; elsewhere (a pattern the registry
rejects) it is compared like a literal. -/
def matchSegments : List String → List String → Bool
  | [], [] => true
  | [], _ :: _ => false
  | p :: ps, ts =>
    if p = "**" ∧ ps = [] then true
    else
      match ts with
      | [] => false
      | t :: ts' => segmentMatches p t && matchSegments ps ts'

/-- Modelled from the spec: the contract `matches(pattern, topic) -> bool` of the Topic
Matcher (section 4.1); the matcher's source is missing. -/
def «matches» (pattern topic : String) : Bool :=
  matchSegments (segments pattern) (segments topic)

/-- Modelled from the spec: pattern validation on segments (section 4.1: `**` not in
final position and an empty segment are malformed); the validator's source is
missing. -/
def validPatternSegments : List String → Bool
  | [] => false
  | [p] => p ≠ ""
  | p :: q :: ps => p ≠ "" && p ≠ "**" && validPatternSegments (q :: ps)

/-- Modelled from the spec: the pattern validator used at subscribe time (section 4.1);
its source is missing. -/
def validPattern (pattern : String) : Bool :=
  validPatternSegments (segments pattern)

/-- Modelled from the spec: the topic check of `publish` (section 4.3: a topic is
rejected when it is empty or has an invalid delimiter sequence such as consecutive
delimiters, that is when one of its segments is empty); its source is missing. -/
def validTopic (topic : String) : Bool :=
  (segments topic).all (fun seg => seg ≠ "")

/-- Modelled from the spec: the error kinds a bus call returns to its caller (section
7); the bus source is missing. -/
inductive BusError where
  | InvalidPattern : BusError
  | InvalidTopic : BusError
deriving DecidableEq, Repr

/-- Modelled from the spec: the options of `subscribe` with their defaults (sections 3
and 6); the bus source is missing. -/
structure SubscriptionOptions where
  priority : Int := 0
  receiveOwnEvents : Bool := false
deriving DecidableEq, Repr

/-- Modelled from the spec: the Subscription record (section 3); the delivery target is
an opaque handle that may be absent; the bus source is missing. -/
structure Subscription where
  id : Nat
  pattern : String
  subscriberId : String
  priority : Int
  receiveOwnEvents : Bool
  deliveryTarget : Option Nat
deriving DecidableEq, Repr

/-- Modelled from the spec: the Event record (section 3); the bus source is missing. -/
structure Event where
  topic : String
  payload : QVariantMap
  senderId : String

/-- Modelled from the spec: the state of the bus, that is the Subscription Registry in
registration order, the id generator and the cumulative event counts of the Stats
Collector (sections 4.2 and 4.4); the bus source is missing. -/
structure EventBus where
  subscriptions : List Subscription
  nextId : Nat
  eventCounts : List (String × Nat)

namespace EventBus

/-- Modelled from the spec: a bus with no subscription and no recorded event; the bus
source is missing. -/
def empty : EventBus :=
  { subscriptions := [], nextId := 0, eventCounts := [] }

/-- Modelled from the spec: the invariant that ids are generated fresh (section 3,
"every Subscription has a globally unique id"): the stored ids are pairwise different
and all below the next id to hand out; the bus source is missing. -/
def WellFormed (bus : EventBus) : Prop :=
  (bus.subscriptions.map Subscription.id).Nodup ∧
  ∀ sub ∈ bus.subscriptions, sub.id < bus.nextId

/-- Modelled from the spec: the Subscription record that `subscribe` stores: the fresh
id, the arguments and the options (sections 3 and 4.2); the bus source is missing. -/
def newSubscription (bus : EventBus) (pattern subscriberId : String)
    (deliveryTarget : Option Nat) (options : SubscriptionOptions) : Subscription :=
  { id := bus.nextId, pattern := pattern, subscriberId := subscriberId,
    priority := options.priority, receiveOwnEvents := options.receiveOwnEvents,
    deliveryTarget := deliveryTarget }

/-- Modelled from the spec: the registry after `add` stored a subscription (section
4.2): it comes after the existing ones and the id generator moves on; the bus source is
missing. -/
def store (bus : EventBus) (sub : Subscription) : EventBus :=
  { bus with subscriptions := bus.subscriptions ++ [sub], nextId := bus.nextId + 1 }

/-- Modelled from the spec: the operation `subscribe(pattern, subscriberId,
deliveryTarget, options)` (sections 4.2 and 6): validate the pattern, generate a fresh
id, store the subscription after the existing ones, return the id; the bus source is
missing. -/
def subscribe (bus : EventBus) (pattern subscriberId : String)
    (deliveryTarget : Option Nat) (options : SubscriptionOptions) :
    Except BusError (Nat × EventBus) :=
  if validPattern pattern then
    Except.ok (bus.nextId,
      bus.store (bus.newSubscription pattern subscriberId deliveryTarget options))
  else Except.error BusError.InvalidPattern

/-- Modelled from the spec: the operation `unsubscribe(subscriptionId)` (section 4.2,
`remove`): whether the id existed, and the registry without it; the bus source is
missing. -/
def unsubscribe (bus : EventBus) (subscriptionId : Nat) : Bool × EventBus :=
  (bus.subscriptions.any (fun sub => sub.id = subscriptionId),
   { bus with subscriptions := bus.subscriptions.filter (fun sub => sub.id ≠ subscriptionId) })

/-- Modelled from the spec: the operation `unsubscribeAll(subscriberId)` (section 4.2,
`removeAll`): the number of subscriptions the subscriber owned, and the registry
without them; the bus source is missing. -/
def unsubscribeAll (bus : EventBus) (subscriberId : String) : Nat × EventBus :=
  ((bus.subscriptions.filter (fun sub => sub.subscriberId = subscriberId)).length,
   { bus with
     subscriptions := bus.subscriptions.filter (fun sub => sub.subscriberId ≠ subscriberId) })

/-- Modelled from the spec: step 1 of `publish`, `recordPublish(topic)` of the Stats
Collector (section 4.4): add one to the event count of this exact topic string; the bus
source is missing. -/
def recordPublish : List (String × Nat) → String → List (String × Nat)
  | [], topic => [(topic, 1)]
  | (t, n) :: rest, topic =>
    if t = topic then (t, n + 1) :: rest else (t, n) :: recordPublish rest topic

/-- Modelled from the spec: step 3 of `publish`, the self-publish rule (section 4.3): a
subscription is filtered out when its subscriber is the sender, unless it asked for its
own events; the bus source is missing. -/
def selfFiltered (sub : Subscription) (senderId : String) : Bool :=
  sub.subscriberId = senderId && !sub.receiveOwnEvents

/-- Modelled from the spec: insertion of one subscription in front of a list that is
already in delivery order, before the first entry whose priority is not higher (section
4.3, step 4); the bus source is missing. -/
def insertByPriority (sub : Subscription) : List Subscription → List Subscription
  | [] => [sub]
  | t :: ts =>
    if t.priority ≤ sub.priority then sub :: t :: ts
    else t :: insertByPriority sub ts

/-- Modelled from the spec: step 4 of `publish`, the stable sort by descending priority
(section 4.3); the bus source is missing. -/
def sortByPriority : List Subscription → List Subscription
  | [] => []
  | sub :: subs => insertByPriority sub (sortByPriority subs)

/-- Modelled from the spec: one delivery made by `publish` (section 4.3, step 5): to the
delivery target of a subscription, or the broadcast notification `eventPublished` for
the subscriptions without a target; the bus source is missing. -/
inductive Delivery where
  | toTarget (subscriptionId target : Nat) (event : Event) : Delivery
  | broadcast (event : Event) : Delivery

/-- Modelled from the spec: the deliveries to the targets of the ordered subscriptions,
in that order (section 4.3, step 5); the bus source is missing. -/
def targetDeliveries (event : Event) : List Subscription → List Delivery
  | [] => []
  | sub :: subs =>
    match sub.deliveryTarget with
    | some target => Delivery.toTarget sub.id target event :: targetDeliveries event subs
    | none => targetDeliveries event subs

/-- Modelled from the spec: step 5 of `publish` (section 4.3): deliver in order to each
target, and emit the broadcast once for the batch when some subscription in it has no
target; the bus source is missing. -/
def deliver (event : Event) (ordered : List Subscription) : List Delivery :=
  targetDeliveries event ordered ++
    (if ordered.any (fun sub => sub.deliveryTarget.isNone) then [Delivery.broadcast event]
     else [])

/-- Modelled from the spec: what one `publish` call produces: the returned
`notifiedCount`, the subscriptions notified in delivery order, the deliveries made, and
the bus with its statistics updated; the bus source is missing. -/
structure PublishResult where
  notifiedCount : Nat
  notified : List Subscription
  deliveries : List Delivery
  bus : EventBus

/-- Modelled from the spec: steps 2 to 4 of `publish` (section 4.3): the subscriptions
matching the topic, without those the self-publish rule filters out, in delivery order;
the bus source is missing. -/
def notifiedFor (bus : EventBus) (topic senderId : String) : List Subscription :=
  let matching := bus.subscriptions.filter (fun sub => «matches» sub.pattern topic)
  let remaining := matching.filter (fun sub => !selfFiltered sub senderId)
  sortByPriority remaining

/-- Modelled from the spec: the operation `publish(topic, payload, senderId)` (section
4.3, steps 1 to 6, and its `InvalidTopic` failure); the bus source is missing. -/
def publish (bus : EventBus) (topic : String) (payload : QVariantMap) (senderId : String) :
    Except BusError PublishResult :=
  if validTopic topic then
    let event : Event := { topic := topic, payload := payload, senderId := senderId }
    let counts := recordPublish bus.eventCounts topic
    let ordered := bus.notifiedFor topic senderId
    Except.ok
      { notifiedCount := ordered.length, notified := ordered,
        deliveries := deliver event ordered,
        bus := { bus with eventCounts := counts } }
  else Except.error BusError.InvalidTopic

/-- Modelled from the spec: the operation `subscriberCount(topic)` (sections 4.4 and 6):
the live count of the subscriptions whose pattern matches the topic; the bus source is
missing. -/
def subscriberCount (bus : EventBus) (topic : String) : Nat :=
  bus.subscriptions.countP (fun sub => «matches» sub.pattern topic)

/-- The subscription whose target a delivery goes to; none for the broadcast. -/
def Delivery.subscriptionId : Delivery → Option Nat
  | .toTarget subscriptionId _ _ => some subscriptionId
  | .broadcast _ => none

/-- Whether a delivery is the broadcast notification. -/
def Delivery.isBroadcast : Delivery → Bool
  | .toTarget _ _ _ => false
  | .broadcast _ => true

/-- Whether a delivery is the one that reaches a subscription: the delivery to its target
when it has one, the broadcast when it has none. -/
def Delivery.serves (d : Delivery) (sub : Subscription) : Bool :=
  match d with
  | .toTarget subscriptionId _ _ => sub.deliveryTarget.isSome && subscriptionId = sub.id
  | .broadcast _ => sub.deliveryTarget.isNone

/-- Whether, in a sequence of deliveries, subscription `a` is delivered to before
subscription `b`: no delivery reaches `b` until one has reached `a`, and one reaches
`b` later. -/
def servedBefore : List Delivery → Subscription → Subscription → Bool
  | [], _, _ => false
  | d :: ds, a, b =>
    if d.serves b then false
    else if d.serves a then ds.any (fun e => e.serves b)
    else servedBefore ds a b

/-- The bus after a `subscribe` call whose result the caller does not inspect: the bus
with the new subscription, or the bus as it was when the pattern is rejected. -/
def afterSubscribe (bus : EventBus) (pattern subscriberId : String)
    (deliveryTarget : Option Nat) (options : SubscriptionOptions) : EventBus :=
  match bus.subscribe pattern subscriberId deliveryTarget options with
  | Except.ok (_, bus') => bus'
  | Except.error _ => bus

/-- Modelled from the spec: the call `subscribeSimple(pattern, subscriberId)` that
`DemoService` invokes by name: a subscription without delivery target and with default
options; when the pattern is rejected the bus is unchanged; the bus source is missing. -/
def subscribeSimple (bus : EventBus) (pattern subscriberId : String) : EventBus :=
  match bus.subscribe pattern subscriberId none {} with
  | Except.ok (_, bus') => bus'
  | Except.error _ => bus

/-- The bus after one effect of the plugin: only the calls made on the bus change it. -/
def applyEffect (bus : EventBus) : Effect → EventBus
  | .busSubscribeSimple pattern subscriberId => bus.subscribeSimple pattern subscriberId
  | .busUnsubscribe subscriptionId => (bus.unsubscribe subscriptionId).2
  | .busUnsubscribeAll subscriberId => (bus.unsubscribeAll subscriberId).2
  | _ => bus

/-- The bus after a trace of effects of the plugin, in program order. -/
def applyEffects (bus : EventBus) : List Effect → EventBus
  | [] => bus
  | e :: es => applyEffects (bus.applyEffect e) es

end EventBus

/-- The segment-wise definition of a match, on the two segment sequences: every literal
pattern segment is equal to the topic segment at its position, every `*` has a topic
segment at its position, and the pattern ends in `**` or the two sequences have the
same length. A segment is a literal when it is neither `*` nor the `**` in last
position. -/
def SegmentwiseMatch (ps ts : List String) : Prop :=
  (∀ (i : Nat) (p : String), ps[i]? = some p → p ≠ "*" → ¬ (p = "**" ∧ i + 1 = ps.length) →
      ts[i]? = some p) ∧
  (∀ i : Nat, ps[i]? = some "*" → ∃ t : String, ts[i]? = some t) ∧
  (ps.getLast? = some "**" ∨ ps.length = ts.length)

/-! ## Lemmas on the Qt containers -/

theorem QVariantMap.value_insert_same (m : QVariantMap) (key : String) (v dflt : QVariant) :
    QVariantMap.value (QVariantMap.insert m key v) key dflt = v := by
  induction m with
  | nil => simp [QVariantMap.insert, QVariantMap.value]
  | cons kv rest ih =>
    obtain ⟨k, w⟩ := kv
    unfold QVariantMap.insert
    by_cases h1 : key.data < k.data
    · simp [h1, QVariantMap.value]
    · by_cases h2 : key = k
      · simp [h1, h2, QVariantMap.value]
      · have h3 : ¬ k = key := fun e => h2 e.symm
        simp [h1, h2, h3, QVariantMap.value, ih]

theorem QVariantMap.value_insert_other (m : QVariantMap) (key other : String)
    (v dflt : QVariant) (hne : key ≠ other) :
    QVariantMap.value (QVariantMap.insert m key v) other dflt =
      QVariantMap.value m other dflt := by
  induction m with
  | nil => simp [QVariantMap.insert, QVariantMap.value, hne]
  | cons kv rest ih =>
    obtain ⟨k, w⟩ := kv
    unfold QVariantMap.insert
    by_cases h1 : key.data < k.data
    · simp [h1, QVariantMap.value, hne]
    · by_cases h2 : key = k
      · subst h2
        simp [h1, QVariantMap.value, hne]
      · by_cases h3 : k = other
        · subst h3
          simp [h1, h2, QVariantMap.value]
        · simp [h1, h2, h3, QVariantMap.value, ih]

theorem QVariantMap.value_of_not_contains (m : QVariantMap) (key : String) (dflt : QVariant)
    (h : QVariantMap.contains m key = false) : QVariantMap.value m key dflt = dflt := by
  induction m with
  | nil => rfl
  | cons kv rest ih =>
    obtain ⟨k, w⟩ := kv
    by_cases hk : k = key
    · simp [QVariantMap.contains, hk] at h
    · simp [QVariantMap.contains, hk] at h
      simp [QVariantMap.value, hk, ih h]

theorem QVariantMap.value_of_contains (m : QVariantMap) (key : String) (d1 d2 : QVariant)
    (h : QVariantMap.contains m key = true) :
    QVariantMap.value m key d1 = QVariantMap.value m key d2 := by
  induction m with
  | nil => simp [QVariantMap.contains] at h
  | cons kv rest ih =>
    obtain ⟨k, w⟩ := kv
    by_cases hk : k = key
    · simp [QVariantMap.value, hk]
    · simp [QVariantMap.contains, hk] at h
      simp [QVariantMap.value, hk, ih h]

theorem toInt32_of_small (n : Nat) (h : n < 2 ^ 31) : toInt32 n = (n : Int) := by
  have h1 : n % 2 ^ 32 = n := Nat.mod_eq_of_lt (by omega)
  simp only [toInt32, h1]
  rw [if_pos h]

/-! ## Lemmas on DemoService -/

namespace DemoService

theorem capLoop_eq_take (fuel : Nat) (msgs : QVariantList)
    (h : msgs.length ≤ fuel + MAX_MESSAGES) :
    capLoop fuel msgs = msgs.take MAX_MESSAGES := by
  induction fuel generalizing msgs with
  | zero =>
    have h0 : msgs.length ≤ MAX_MESSAGES := by omega
    simp [capLoop, List.take_of_length_le h0]
  | succ fuel ih =>
    unfold capLoop
    by_cases hgt : msgs.length > MAX_MESSAGES
    · rw [if_pos hgt, ih msgs.dropLast (by rw [List.length_dropLast]; omega),
        List.dropLast_eq_take, List.take_take]
      congr 1
      omega
    · have h0 : msgs.length ≤ MAX_MESSAGES := by omega
      rw [if_neg hgt, List.take_of_length_le h0]

theorem capLoop_self (msgs : QVariantList) :
    capLoop msgs.length msgs = msgs.take MAX_MESSAGES :=
  capLoop_eq_take msgs.length msgs (by omega)

theorem onEventReceived_accepted (self : DemoService) (now topic : String)
    (data : QVariantMap) (senderId : String)
    (hp : startsWith topic self.m_topicPrefix = true) (hs : senderId ≠ self.m_pluginId) :
    self.onEventReceived now topic data senderId =
      ({ self with m_receivedMessages :=
          (QVariant.map (buildMessage now topic data senderId) ::
            self.m_receivedMessages).take MAX_MESSAGES },
       [Effect.emitMessagesChanged]) := by
  unfold onEventReceived
  simp only [hp, hs, Bool.not_true, Bool.false_eq_true, if_false]
  rw [capLoop_self]

theorem onEventReceived_length_le (self : DemoService) (now topic : String)
    (data : QVariantMap) (senderId : String)
    (h : self.m_receivedMessages.length ≤ MAX_MESSAGES) :
    (self.onEventReceived now topic data senderId).1.m_receivedMessages.length ≤
      MAX_MESSAGES := by
  unfold onEventReceived
  split
  · exact h
  · split
    · exact h
    · simp only [capLoop_self, List.length_take]
      omega

theorem step_length_le (self : DemoService) (c : Call)
    (h : self.m_receivedMessages.length ≤ MAX_MESSAGES) :
    (self.step c).m_receivedMessages.length ≤ MAX_MESSAGES := by
  cases c with
  | onEventReceived now topic data senderId =>
    exact onEventReceived_length_le self now topic data senderId h
  | clearMessages => simp [step, clearMessages]
  | connectToEventBus topicPrefix => simpa [step, connectToEventBus] using h

theorem run_length_le (self : DemoService) (calls : List Call)
    (h : self.m_receivedMessages.length ≤ MAX_MESSAGES) :
    (self.run calls).m_receivedMessages.length ≤ MAX_MESSAGES := by
  induction calls generalizing self with
  | nil => exact h
  | cons c cs ih => exact ih (self.step c) (step_length_le self c h)

theorem messageCount_of_le (self : DemoService)
    (h : self.m_receivedMessages.length ≤ MAX_MESSAGES) :
    self.messageCount = (self.m_receivedMessages.length : Int) := by
  unfold messageCount
  apply toInt32_of_small
  have : MAX_MESSAGES = 50 := rfl
  omega

theorem onEventReceived_topicPrefix (self : DemoService) (now topic : String)
    (data : QVariantMap) (senderId : String) :
    (self.onEventReceived now topic data senderId).1.m_topicPrefix = self.m_topicPrefix := by
  unfold onEventReceived
  split
  · rfl
  · split <;> rfl

theorem run_topicPrefix (self : DemoService) (calls : List Call)
    (h : ∀ c ∈ calls, Call.isConnect c = false) :
    (self.run calls).m_topicPrefix = self.m_topicPrefix := by
  induction calls generalizing self with
  | nil => rfl
  | cons c cs ih =>
    have hc : Call.isConnect c = false := h c (List.mem_cons_self c cs)
    have hcs : ∀ d ∈ cs, Call.isConnect d = false :=
      fun d hd => h d (List.mem_cons_of_mem c hd)
    have hstep : (self.step c).m_topicPrefix = self.m_topicPrefix := by
      cases c with
      | onEventReceived now topic data senderId =>
        exact onEventReceived_topicPrefix self now topic data senderId
      | clearMessages => rfl
      | connectToEventBus topicPrefix => simp [Call.isConnect] at hc
    show ((self.step c).run cs).m_topicPrefix = self.m_topicPrefix
    rw [ih (self.step c) hcs, hstep]

/-! ## Claims on DemoService -/

/-- C1: DemoService never records its own events. From every state, for every topic and
payload, `onEventReceived` called with a sender id equal to the service's plugin id
leaves `receivedMessages` and `messageCount` unchanged and emits no signal, so no
`messagesChanged`. -/
theorem onEventReceived_ignores_own_events (self : DemoService) (now topic : String)
    (data : QVariantMap) (senderId : String) (h : senderId = self.m_pluginId) :
    (self.onEventReceived now topic data senderId).1.receivedMessages =
        self.receivedMessages ∧
      (self.onEventReceived now topic data senderId).1.messageCount = self.messageCount ∧
      (self.onEventReceived now topic data senderId).2.countP Effect.isMessagesChanged = 0 ∧
      self.onEventReceived now topic data senderId = (self, []) := by
  have key : self.onEventReceived now topic data senderId = (self, []) := by
    unfold onEventReceived
    split
    · rfl
    · rfl
  rw [key]
  exact ⟨rfl, rfl, rfl, rfl⟩

theorem onEventReceived_ignores_own_events_witness :
    "com.yourco.orders" = (DemoService.new "com.yourco.orders").m_pluginId ∧
      ((DemoService.new "com.yourco.orders").onEventReceived "12:00:00.000"
          "orders/created" [("message", QVariant.string "hi")]
          "com.yourco.orders").1.receivedMessages = [] :=
  ⟨rfl,
   (onEventReceived_ignores_own_events (DemoService.new "com.yourco.orders")
      "12:00:00.000" "orders/created" [("message", QVariant.string "hi")]
      "com.yourco.orders" rfl).1⟩

/-- C2: DemoService filters the broadcast channel by topic prefix. Take any state, give
it a prefix with `connectToEventBus`, and make any further calls that are not
`connectToEventBus`. In the state reached, `onEventReceived` with a topic that does not
start with that prefix (case-sensitive comparison), whatever the payload and the sender,
leaves `receivedMessages` unchanged and emits no signal, so no `messagesChanged`. -/
theorem onEventReceived_prefix_filter (self : DemoService) (topicPrefix : String)
    (calls : List Call) (now topic : String) (data : QVariantMap) (senderId : String)
    (hcalls : ∀ c ∈ calls, Call.isConnect c = false)
    (h : startsWith topic topicPrefix = false) :
    (((self.connectToEventBus topicPrefix).1.run calls).onEventReceived now topic data
        senderId).1.receivedMessages =
        ((self.connectToEventBus topicPrefix).1.run calls).receivedMessages ∧
      (((self.connectToEventBus topicPrefix).1.run calls).onEventReceived now topic data
        senderId).2.countP Effect.isMessagesChanged = 0 ∧
      ((self.connectToEventBus topicPrefix).1.run calls).onEventReceived now topic data
        senderId = ((self.connectToEventBus topicPrefix).1.run calls, []) := by
  have hpre : ((self.connectToEventBus topicPrefix).1.run calls).m_topicPrefix =
      topicPrefix := by
    rw [run_topicPrefix _ calls hcalls]
    rfl
  have key : ((self.connectToEventBus topicPrefix).1.run calls).onEventReceived now topic
      data senderId = ((self.connectToEventBus topicPrefix).1.run calls, []) := by
    unfold onEventReceived
    rw [hpre, h]
    rfl
  rw [key]
  exact ⟨rfl, rfl, rfl⟩

theorem onEventReceived_prefix_filter_witness :
    startsWith "Orders/created" "orders/" = false ∧
      ((((DemoService.new "com.yourco.orders").connectToEventBus "orders/").1.run
          [Call.clearMessages]).onEventReceived "12:00:00.000" "Orders/created" []
          "com.other.plugin").2.countP Effect.isMessagesChanged = 0 :=
  ⟨by decide,
   (onEventReceived_prefix_filter (DemoService.new "com.yourco.orders") "orders/"
      [Call.clearMessages] "12:00:00.000" "Orders/created" [] "com.other.plugin"
      (by simp [Call.isConnect]) (by decide)).2.1⟩

/-- C3: the message buffer is bounded. In every state reached from a freshly constructed
DemoService by any sequence of `onEventReceived`, `clearMessages` and
`connectToEventBus` calls, `messageCount()` is at most `MAX_MESSAGES`, which is 50; and
from any state at all, whatever its count, an accepted `onEventReceived` leaves at most
50 messages. -/
theorem messageCount_bounded (pluginId : String) (calls : List Call) (self : DemoService)
    (now topic : String) (data : QVariantMap) (senderId : String)
    (hp : startsWith topic self.m_topicPrefix = true) (hs : senderId ≠ self.m_pluginId) :
    MAX_MESSAGES = 50 ∧
      ((DemoService.new pluginId).run calls).messageCount ≤ 50 ∧
      ((DemoService.new pluginId).run calls).receivedMessages.length ≤ 50 ∧
      (self.onEventReceived now topic data senderId).1.messageCount ≤ 50 ∧
      (self.onEventReceived now topic data senderId).1.receivedMessages.length ≤ 50 := by
  have hmax : MAX_MESSAGES = 50 := rfl
  have h1 : ((DemoService.new pluginId).run calls).m_receivedMessages.length ≤
      MAX_MESSAGES :=
    run_length_le (DemoService.new pluginId) calls (by simp [DemoService.new])
  have h2 : (self.onEventReceived now topic data senderId).1.m_receivedMessages.length ≤
      MAX_MESSAGES := by
    rw [onEventReceived_accepted self now topic data senderId hp hs]
    simp only [List.length_take]
    omega
  refine ⟨hmax, ?_, ?_, ?_, ?_⟩
  · rw [messageCount_of_le _ h1]
    omega
  · simpa [receivedMessages, hmax] using h1
  · rw [messageCount_of_le _ h2]
    omega
  · simpa [receivedMessages, hmax] using h2

theorem messageCount_bounded_witness :
    startsWith "orders/created" (DemoService.new "com.yourco.orders").m_topicPrefix = true ∧
      "com.rules" ≠ (DemoService.new "com.yourco.orders").m_pluginId ∧
      ((DemoService.new "com.yourco.orders").onEventReceived "12:00:00.000"
        "orders/created" [] "com.rules").1.messageCount ≤ 50 :=
  ⟨by decide, by decide,
   (messageCount_bounded "com.yourco.orders" [] (DemoService.new "com.yourco.orders")
      "12:00:00.000" "orders/created" [] "com.rules" (by decide) (by decide)).2.2.2.1⟩

/-- C4: newest first. For every event that `onEventReceived` accepts (the topic starts
with the prefix and the sender differs from the plugin id), afterwards
`receivedMessages` is not empty and its element at index 0 is a map whose "topic",
"data" and "senderId" entries are the three arguments and whose "message" entry is the
string value of the payload's "message" entry, or the empty string when the payload has
no such key; `messagesChanged` is emitted exactly once. -/
theorem onEventReceived_newest_first (self : DemoService) (now topic : String)
    (data : QVariantMap) (senderId : String)
    (hp : startsWith topic self.m_topicPrefix = true) (hs : senderId ≠ self.m_pluginId) :
    (self.onEventReceived now topic data senderId).1.receivedMessages ≠ [] ∧
      (∃ msg : QVariantMap,
        (self.onEventReceived now topic data senderId).1.receivedMessages[0]? =
          some (QVariant.map msg) ∧
        msg.value "topic" QVariant.invalid = QVariant.string topic ∧
        msg.value "data" QVariant.invalid = QVariant.map data ∧
        msg.value "senderId" QVariant.invalid = QVariant.string senderId ∧
        msg.value "message" QVariant.invalid =
          QVariant.string
            (if data.contains "message" then (data.value "message" QVariant.invalid).toString
             else "")) ∧
      (self.onEventReceived now topic data senderId).2.countP Effect.isMessagesChanged = 1 := by
  rw [onEventReceived_accepted self now topic data senderId hp hs]
  have hmax : MAX_MESSAGES = 50 := rfl
  refine ⟨?_, ⟨buildMessage now topic data senderId, ?_, ?_, ?_, ?_, ?_⟩, rfl⟩
  · simp [receivedMessages, hmax]
  · simp [receivedMessages, hmax]
  · simp only [buildMessage]
    rw [QVariantMap.value_insert_other _ _ _ _ _ (by decide),
      QVariantMap.value_insert_other _ _ _ _ _ (by decide),
      QVariantMap.value_insert_other _ _ _ _ _ (by decide),
      QVariantMap.value_insert_other _ _ _ _ _ (by decide),
      QVariantMap.value_insert_same]
  · simp only [buildMessage]
    rw [QVariantMap.value_insert_other _ _ _ _ _ (by decide),
      QVariantMap.value_insert_other _ _ _ _ _ (by decide),
      QVariantMap.value_insert_other _ _ _ _ _ (by decide),
      QVariantMap.value_insert_same]
  · simp only [buildMessage]
    rw [QVariantMap.value_insert_other _ _ _ _ _ (by decide),
      QVariantMap.value_insert_other _ _ _ _ _ (by decide),
      QVariantMap.value_insert_same]
  · simp only [buildMessage]
    rw [QVariantMap.value_insert_same]
    cases hc : QVariantMap.contains data "message"
    · rw [QVariantMap.value_of_not_contains data "message" _ hc]
      simp [QVariant.toString]
    · rw [QVariantMap.value_of_contains data "message" (QVariant.string "")
        QVariant.invalid hc]
      simp

theorem onEventReceived_newest_first_witness :
    startsWith "orders/created" (DemoService.new "com.yourco.orders").m_topicPrefix = true ∧
      "com.rules" ≠ (DemoService.new "com.yourco.orders").m_pluginId ∧
      ((DemoService.new "com.yourco.orders").onEventReceived "12:00:00.000"
        "orders/created" [("message", QVariant.string "hi")]
        "com.rules").2.countP Effect.isMessagesChanged = 1 :=
  ⟨by decide, by decide,
   (onEventReceived_newest_first (DemoService.new "com.yourco.orders") "12:00:00.000"
      "orders/created" [("message", QVariant.string "hi")] "com.rules"
      (by decide) (by decide)).2.2⟩

/-- C5: `testPost` rejects a malformed body without touching the network. For every url
and body, the call emits `httpResponseReceived(false, 0, "JSON parse error: " followed
by the parser message, 0)` exactly once and hands no request to the HTTP client if and
only if the body fails to parse; and the body parses if and only if the call hands
exactly one `postJson` request for the url and the parsed object to the client and
emits no signal before it returns; the one signal of that request is emitted by the
handler of the finished reply. -/
theorem testPost_rejects_malformed_body (self : DemoService) (fromJson : JsonParser)
    (url jsonBody : String) (reply : QNetworkReply) (elapsed : Int) :
    ((fromJson jsonBody).2.error ≠ QJsonParseError.NoError ↔
        ((self.testPost fromJson url jsonBody).filter Effect.isSignal =
            [Effect.emitHttpResponseReceived false 0
              ("JSON parse error: " ++ (fromJson jsonBody).2.errorString) 0] ∧
          (self.testPost fromJson url jsonBody).countP Effect.isHttpRequest = 0)) ∧
      ((fromJson jsonBody).2.error = QJsonParseError.NoError ↔
        ((self.testPost fromJson url jsonBody).filter Effect.isHttpRequest =
            [Effect.httpPostJson url (fromJson jsonBody).1.object] ∧
          (self.testPost fromJson url jsonBody).countP Effect.isSignal = 0)) ∧
      (replyFinished reply elapsed).countP Effect.isSignal = 1 := by
  unfold testPost
  by_cases herr : (fromJson jsonBody).2.error = QJsonParseError.NoError
  · simp [herr, Effect.isSignal, Effect.isHttpRequest, replyFinished]
  · simp [herr, Effect.isSignal, Effect.isHttpRequest, replyFinished]

/-- C6: `clearMessages` empties the buffer. From every state, afterwards
`receivedMessages` is the empty list and `messageCount()` is 0, `messagesChanged` is
emitted exactly once (the trace is that one emission, also when the buffer was already
empty), the topic prefix and the plugin id are unchanged, and a second call leaves the
state of the first. -/
theorem clearMessages_empties_buffer (self : DemoService) :
    self.clearMessages.1.receivedMessages = [] ∧
      self.clearMessages.1.messageCount = 0 ∧
      self.clearMessages.2 = [Effect.emitMessagesChanged] ∧
      self.clearMessages.2.countP Effect.isMessagesChanged = 1 ∧
      self.clearMessages.1.m_topicPrefix = self.m_topicPrefix ∧
      self.clearMessages.1.m_pluginId = self.m_pluginId ∧
      self.clearMessages.1.clearMessages.1 = self.clearMessages.1 := by
  refine ⟨rfl, ?_, rfl, rfl, rfl, rfl, rfl⟩
  simp [clearMessages, messageCount, toInt32]

end DemoService

/-! ## Lemmas on the topic matcher -/

theorem segmentwiseMatch_nil (ts : List String) : SegmentwiseMatch [] ts ↔ ts = [] := by
  unfold SegmentwiseMatch
  constructor
  · rintro ⟨_, _, h3⟩
    rcases h3 with h3 | h3
    · simp at h3
    · exact List.length_eq_zero.mp h3.symm
  · rintro rfl
    simp

theorem segmentwiseMatch_multi (ts : List String) : SegmentwiseMatch ["**"] ts := by
  unfold SegmentwiseMatch
  refine ⟨?_, ?_, Or.inl rfl⟩
  · intro i p hp hstar hlast
    exfalso
    cases i with
    | zero =>
      simp at hp
      exact hlast ⟨hp.symm, rfl⟩
    | succ j => simp at hp
  · intro i hp
    cases i with
    | zero => simp at hp
    | succ j => simp at hp

theorem segmentwiseMatch_cons_nil (p : String) (ps : List String)
    (hnot : ¬ (p = "**" ∧ ps = [])) : ¬ SegmentwiseMatch (p :: ps) [] := by
  rintro ⟨h1, h2, _⟩
  by_cases hstar : p = "*"
  · obtain ⟨t, ht⟩ := h2 0 (by simp [hstar])
    simp at ht
  · have := h1 0 p (by simp) hstar (by
      rintro ⟨hp, hlen⟩
      apply hnot
      refine ⟨hp, ?_⟩
      simp at hlen
      exact hlen)
    simp at this

theorem segmentwiseMatch_cons_cons (p t : String) (ps ts : List String)
    (hnot : ¬ (p = "**" ∧ ps = [])) :
    SegmentwiseMatch (p :: ps) (t :: ts) ↔ (p = "*" ∨ p = t) ∧ SegmentwiseMatch ps ts := by
  constructor
  · rintro ⟨h1, h2, h3⟩
    refine ⟨?_, ?_, ?_, ?_⟩
    · by_cases hstar : p = "*"
      · exact Or.inl hstar
      · right
        have := h1 0 p (by simp) hstar (by
          rintro ⟨hp, hlen⟩
          apply hnot
          refine ⟨hp, ?_⟩
          simp at hlen
          exact hlen)
        simp at this
        exact this.symm
    · intro i q hq hstar hlast
      have := h1 (i + 1) q (by simpa using hq) hstar (by
        rintro ⟨hq2, hlen⟩
        apply hlast
        refine ⟨hq2, ?_⟩
        simp at hlen
        omega)
      simpa using this
    · intro i hq
      have := h2 (i + 1) (by simpa using hq)
      simpa using this
    · rcases h3 with h3 | h3
      · left
        cases ps with
        | nil =>
          exfalso
          apply hnot
          simp at h3
          exact ⟨h3, rfl⟩
        | cons q qs => simpa [List.getLast?_cons_cons] using h3
      · right
        simpa using h3
  · rintro ⟨h0, h1, h2, h3⟩
    refine ⟨?_, ?_, ?_⟩
    · intro i q hq hstar hlast
      cases i with
      | zero =>
        simp at hq
        subst hq
        rcases h0 with h0 | h0
        · exact absurd h0 hstar
        · simp [h0]
      | succ j =>
        have := h1 j q (by simpa using hq) hstar (by
          rintro ⟨hq2, hlen⟩
          apply hlast
          refine ⟨hq2, ?_⟩
          simp
          omega)
        simpa using this
    · intro i hq
      cases i with
      | zero => exact ⟨t, by simp⟩
      | succ j =>
        have := h2 j (by simpa using hq)
        simpa using this
    · rcases h3 with h3 | h3
      · left
        cases ps with
        | nil => simp at h3
        | cons q qs => simpa [List.getLast?_cons_cons] using h3
      · right
        simpa using h3

theorem matchSegments_iff (ps ts : List String) :
    matchSegments ps ts = true ↔ SegmentwiseMatch ps ts := by
  induction ps generalizing ts with
  | nil =>
    rw [segmentwiseMatch_nil]
    cases ts <;> simp [matchSegments]
  | cons p ps ih =>
    by_cases hmulti : p = "**" ∧ ps = []
    · obtain ⟨rfl, rfl⟩ := hmulti
      simp [matchSegments, segmentwiseMatch_multi]
    · cases ts with
      | nil =>
        have := segmentwiseMatch_cons_nil p ps hmulti
        simp [matchSegments, hmulti, this]
      | cons t ts =>
        rw [segmentwiseMatch_cons_cons p t ps ts hmulti, ← ih ts]
        simp [matchSegments, hmulti, segmentMatches]

/-! ## Lemmas on the bus model -/

namespace EventBus

theorem insertByPriority_perm (sub : Subscription) (subs : List Subscription) :
    (insertByPriority sub subs).Perm (sub :: subs) := by
  induction subs with
  | nil => exact List.Perm.refl _
  | cons t ts ih =>
    unfold insertByPriority
    split
    · exact List.Perm.refl _
    · exact (List.Perm.cons t ih).trans (List.Perm.swap sub t ts)

theorem sortByPriority_perm (subs : List Subscription) :
    (sortByPriority subs).Perm subs := by
  induction subs with
  | nil => exact List.Perm.refl _
  | cons sub subs ih =>
    exact (insertByPriority_perm sub (sortByPriority subs)).trans (List.Perm.cons sub ih)

theorem mem_sortByPriority (sub : Subscription) (subs : List Subscription) :
    sub ∈ sortByPriority subs ↔ sub ∈ subs :=
  (sortByPriority_perm subs).mem_iff

theorem mem_targetDeliveries (event : Event) (subs : List Subscription)
    (sub : Subscription) (target : Nat) (hmem : sub ∈ subs)
    (htarget : sub.deliveryTarget = some target) :
    Delivery.toTarget sub.id target event ∈ targetDeliveries event subs := by
  induction subs with
  | nil => simp at hmem
  | cons t ts ih =>
    rcases List.mem_cons.mp hmem with h | h
    · subst h
      simp [targetDeliveries, htarget]
    · unfold targetDeliveries
      split
      · exact List.mem_cons_of_mem _ (ih h)
      · exact ih h

theorem targetDeliveries_source (event : Event) (subs : List Subscription)
    (subscriptionId target : Nat) (ev : Event)
    (h : Delivery.toTarget subscriptionId target ev ∈ targetDeliveries event subs) :
    ∃ sub ∈ subs, sub.id = subscriptionId := by
  induction subs with
  | nil => simp [targetDeliveries] at h
  | cons t ts ih =>
    unfold targetDeliveries at h
    split at h
    · rcases List.mem_cons.mp h with h | h
      · refine ⟨t, List.mem_cons_self t ts, ?_⟩
        injection h with h1
        exact h1.symm
      · obtain ⟨sub, hsub, hid⟩ := ih h
        exact ⟨sub, List.mem_cons_of_mem t hsub, hid⟩
    · obtain ⟨sub, hsub, hid⟩ := ih h
      exact ⟨sub, List.mem_cons_of_mem t hsub, hid⟩

theorem deliver_source (event : Event) (subs : List Subscription)
    (subscriptionId target : Nat) (ev : Event)
    (h : Delivery.toTarget subscriptionId target ev ∈ deliver event subs) :
    ∃ sub ∈ subs, sub.id = subscriptionId := by
  unfold deliver at h
  rcases List.mem_append.mp h with h | h
  · exact targetDeliveries_source event subs subscriptionId target ev h
  · split at h
    · simp at h
    · simp at h

theorem publish_ok (bus : EventBus) (topic : String) (payload : QVariantMap)
    (senderId : String) (ht : validTopic topic = true) :
    bus.publish topic payload senderId =
      Except.ok
        { notifiedCount := (bus.notifiedFor topic senderId).length,
          notified := bus.notifiedFor topic senderId,
          deliveries :=
            deliver { topic := topic, payload := payload, senderId := senderId }
              (bus.notifiedFor topic senderId),
          bus := { bus with eventCounts := recordPublish bus.eventCounts topic } } := by
  unfold publish
  rw [if_pos ht]

theorem subscribe_ok (bus : EventBus) (pattern subscriberId : String)
    (deliveryTarget : Option Nat) (options : SubscriptionOptions)
    (hp : validPattern pattern = true) :
    bus.subscribe pattern subscriberId deliveryTarget options =
      Except.ok (bus.nextId,
        bus.store (bus.newSubscription pattern subscriberId deliveryTarget options)) := by
  unfold subscribe
  rw [if_pos hp]

theorem mem_notifiedFor (bus : EventBus) (topic senderId : String) (sub : Subscription) :
    sub ∈ bus.notifiedFor topic senderId ↔
      sub ∈ bus.subscriptions ∧ «matches» sub.pattern topic = true ∧
        selfFiltered sub senderId = false := by
  unfold notifiedFor
  rw [mem_sortByPriority]
  simp only [List.mem_filter]
  cases selfFiltered sub senderId <;> simp

theorem wellFormed_empty : EventBus.empty.WellFormed := by
  refine ⟨?_, ?_⟩
  · simp [EventBus.empty]
  · intro sub hsub
    simp [EventBus.empty] at hsub

theorem notifiedFor_perm (bus : EventBus) (topic senderId : String) :
    (bus.notifiedFor topic senderId).Perm
      (bus.subscriptions.filter
        (fun sub => «matches» sub.pattern topic && !selfFiltered sub senderId)) := by
  unfold notifiedFor
  refine (sortByPriority_perm _).trans ?_
  rw [List.filter_filter]
  have hfun : (fun sub : Subscription =>
      (!selfFiltered sub senderId) && «matches» sub.pattern topic) =
      (fun sub => «matches» sub.pattern topic && !selfFiltered sub senderId) := by
    funext sub
    exact Bool.and_comm _ _
  rw [hfun]

theorem mem_store (bus : EventBus) (sub new : Subscription) :
    sub ∈ (bus.store new).subscriptions ↔ sub ∈ bus.subscriptions ∨ sub = new := by
  simp [store]

end EventBus

/-! ## Claims on the plugin lifecycle and the bus -/

/-- C7: a plugin must cancel its subscriptions when it stops. The code does not: for the
service of plugin "com.yourco.orders" connected with prefix "orders/" to a bus without
subscriptions, the whole trace of `connectToEventBus`, `OrdersPlugin::stop()` and the
destructor of DemoService holds no unsubscribe call, and the subscription with pattern
"orders/**" of subscriber "com.yourco.orders.demo" is still registered afterwards. -/
theorem stop_keeps_demo_subscription :
    (((DemoService.new "com.yourco.orders").connectToEventBus "orders/").2 ++
        OrdersPlugin.stop ++
        DemoService.destroy
          ((DemoService.new "com.yourco.orders").connectToEventBus "orders/").1).any
        Effect.isUnsubscribe = false ∧
      ((EventBus.empty.applyEffects
          (((DemoService.new "com.yourco.orders").connectToEventBus "orders/").2 ++
            OrdersPlugin.stop ++
            DemoService.destroy
              ((DemoService.new "com.yourco.orders").connectToEventBus
                "orders/").1)).subscriptions.map
        (fun sub => (sub.pattern, sub.subscriberId))) =
        [("orders/**", "com.yourco.orders.demo")] := by
  constructor
  · decide
  · decide

/-- C8: self-publish suppression on the bus. On a bus whose ids are fresh, for every
valid pattern, every valid topic matching it and every subscriber id s: after
`subscribe(pattern, s)` with default options, `publish(topic, payload, senderId = s)`
succeeds and does not notify the new subscription (it is not among the notified ones and
no delivery is made to its target); after the same `subscribe` with
`receiveOwnEvents = true`, the same publish notifies it (it is among the notified ones,
and its target is delivered to, or the broadcast is emitted when it has none). -/
theorem publish_self_suppression (bus : EventBus) (pattern topic s : String)
    (target : Option Nat) (payload : QVariantMap) (priority : Int)
    (hwf : bus.WellFormed) (hp : validPattern pattern = true)
    (ht : validTopic topic = true) (hm : «matches» pattern topic = true) :
    (∃ id bus1 r,
        bus.subscribe pattern s target {} = Except.ok (id, bus1) ∧
        bus1.publish topic payload s = Except.ok r ∧
        (∀ sub ∈ r.notified, sub.id ≠ id) ∧
        (∀ tg ev, EventBus.Delivery.toTarget id tg ev ∉ r.deliveries)) ∧
      (∃ id bus1 r sub,
        bus.subscribe pattern s target { priority := priority, receiveOwnEvents := true } =
          Except.ok (id, bus1) ∧
        bus1.publish topic payload s = Except.ok r ∧
        sub ∈ r.notified ∧ sub.id = id ∧ sub.pattern = pattern ∧ sub.subscriberId = s ∧
        (∀ tg, target = some tg →
          EventBus.Delivery.toTarget id tg { topic := topic, payload := payload, senderId := s } ∈
            r.deliveries) ∧
        (target = none →
          EventBus.Delivery.broadcast { topic := topic, payload := payload, senderId := s } ∈
            r.deliveries)) := by
  constructor
  · have hsub := EventBus.subscribe_ok bus pattern s target {} hp
    have hpub := EventBus.publish_ok
      (bus.store (bus.newSubscription pattern s target {})) topic payload s ht
    have hfresh : ∀ sub ∈
        (bus.store (bus.newSubscription pattern s target {})).notifiedFor topic s,
        sub.id ≠ bus.nextId := by
      intro sub hmem hid
      rw [EventBus.mem_notifiedFor, EventBus.mem_store] at hmem
      obtain ⟨hin, _, hfilt⟩ := hmem
      rcases hin with hin | hin
      · have := hwf.2 sub hin
        omega
      · subst hin
        simp [EventBus.selfFiltered, EventBus.newSubscription] at hfilt
    refine ⟨_, _, _, hsub, hpub, hfresh, ?_⟩
    intro tg ev hdel
    obtain ⟨sub, hmem, hid⟩ := EventBus.deliver_source _ _ _ _ _ hdel
    exact hfresh sub hmem hid
  · have hsub := EventBus.subscribe_ok bus pattern s target
      { priority := priority, receiveOwnEvents := true } hp
    have hpub := EventBus.publish_ok
      (bus.store (bus.newSubscription pattern s target
        { priority := priority, receiveOwnEvents := true })) topic payload s ht
    have hmem : bus.newSubscription pattern s target
        { priority := priority, receiveOwnEvents := true } ∈
        (bus.store (bus.newSubscription pattern s target
          { priority := priority, receiveOwnEvents := true })).notifiedFor topic s := by
      rw [EventBus.mem_notifiedFor, EventBus.mem_store]
      refine ⟨Or.inr rfl, hm, ?_⟩
      simp [EventBus.selfFiltered, EventBus.newSubscription]
    refine ⟨_, _, _, _, hsub, hpub, hmem, rfl, rfl, rfl, ?_, ?_⟩
    · intro tg htg
      unfold EventBus.deliver
      apply List.mem_append_left
      exact EventBus.mem_targetDeliveries _ _ _ tg hmem
        (by simp [EventBus.newSubscription, htg])
    · intro hnone
      unfold EventBus.deliver
      apply List.mem_append_right
      have hany : ((bus.store (bus.newSubscription pattern s target
          { priority := priority, receiveOwnEvents := true })).notifiedFor topic s).any
          (fun sub => sub.deliveryTarget.isNone) = true := by
        rw [List.any_eq_true]
        exact ⟨_, hmem, by simp [EventBus.newSubscription, hnone]⟩
      rw [if_pos hany]
      exact List.mem_singleton.mpr rfl

theorem publish_self_suppression_witness :
    EventBus.empty.WellFormed ∧ validPattern "orders/**" = true ∧
      validTopic "orders/created" = true ∧ «matches» "orders/**" "orders/created" = true ∧
      ∃ id bus1 r,
        EventBus.empty.subscribe "orders/**" "com.yourco.orders" none {} =
          Except.ok (id, bus1) ∧
        bus1.publish "orders/created" [] "com.yourco.orders" = Except.ok r ∧
        (∀ sub ∈ r.notified, sub.id ≠ id) ∧
        (∀ tg ev, EventBus.Delivery.toTarget id tg ev ∉ r.deliveries) :=
  ⟨EventBus.wellFormed_empty, by decide, by decide, by decide,
   (publish_self_suppression EventBus.empty "orders/**" "orders/created"
      "com.yourco.orders" none [] 0 EventBus.wellFormed_empty (by decide) (by decide)
      (by decide)).1⟩

/-- C9: the count returned by `publish`. For every registry and every publish of a valid
topic, the call succeeds and the returned `notifiedCount` is the number of
subscriptions whose pattern matches the topic and that the self-publish rule does not
remove; the notified subscriptions are exactly those; the count is the same when every
delivery target is erased; and when the ids are fresh (pairwise different) it is the
number of distinct ids among those subscriptions. -/
theorem publish_notifiedCount (bus : EventBus) (topic : String) (payload : QVariantMap)
    (senderId : String) (ht : validTopic topic = true) :
    ∃ r, bus.publish topic payload senderId = Except.ok r ∧
      r.notifiedCount = bus.subscriptions.countP
        (fun sub => «matches» sub.pattern topic && !EventBus.selfFiltered sub senderId) ∧
      r.notified.Perm (bus.subscriptions.filter
        (fun sub => «matches» sub.pattern topic && !EventBus.selfFiltered sub senderId)) ∧
      r.notifiedCount =
        (bus.subscriptions.map (fun sub => { sub with deliveryTarget := none })).countP
          (fun sub => «matches» sub.pattern topic && !EventBus.selfFiltered sub senderId) ∧
      (bus.WellFormed → r.notifiedCount =
        ((bus.subscriptions.filter
          (fun sub => «matches» sub.pattern topic &&
            !EventBus.selfFiltered sub senderId)).map Subscription.id).toFinset.card) := by
  have hperm := EventBus.notifiedFor_perm bus topic senderId
  have hlen : (bus.notifiedFor topic senderId).length = bus.subscriptions.countP
      (fun sub => «matches» sub.pattern topic && !EventBus.selfFiltered sub senderId) := by
    rw [hperm.length_eq, List.countP_eq_length_filter]
  refine ⟨_, EventBus.publish_ok bus topic payload senderId ht, hlen, hperm, ?_, ?_⟩
  · show (bus.notifiedFor topic senderId).length = _
    rw [hlen, List.countP_map]
    rfl
  · intro hwf
    show (bus.notifiedFor topic senderId).length = _
    have hnodup : ((bus.subscriptions.filter
        (fun sub => «matches» sub.pattern topic &&
          !EventBus.selfFiltered sub senderId)).map Subscription.id).Nodup :=
      List.Nodup.sublist (List.Sublist.map _ (List.filter_sublist _)) hwf.1
    rw [List.toFinset_card_of_nodup hnodup, List.length_map, hperm.length_eq]

theorem publish_notifiedCount_witness :
    validTopic "rules/check/completed" = true ∧
      ∃ r, (EventBus.empty.subscribeSimple "rules/**" "orders").publish
          "rules/check/completed" [("orderId", QVariant.string "42")] "rules" =
          Except.ok r ∧
        r.notifiedCount = (EventBus.empty.subscribeSimple "rules/**" "orders").subscriptions.countP
          (fun sub => «matches» sub.pattern "rules/check/completed" &&
            !EventBus.selfFiltered sub "rules") :=
  ⟨by decide,
   (publish_notifiedCount (EventBus.empty.subscribeSimple "rules/**" "orders")
      "rules/check/completed" [("orderId", QVariant.string "42")] "rules"
      (by decide)).imp (fun _ h => ⟨h.1, h.2.1⟩)⟩

/-- C10: topic matching follows the segment-wise definition. For every pattern and topic,
split on `/`, `matches(pattern, topic)` is true exactly when every literal pattern
segment equals the topic segment at its position, every `*` has a topic segment at its
position, and the pattern ends in `**` (which takes the remaining topic segments, also
none) or the two segment counts are equal; and the five listed cases evaluate as
stated. -/
theorem matches_segmentwise :
    (∀ pattern topic : String,
        «matches» pattern topic = true ↔
          SegmentwiseMatch (segments pattern) (segments topic)) ∧
      «matches» "a/*/c" "a/b/c" = true ∧
      «matches» "a/*/c" "a/b/b/c" = false ∧
      «matches» "a/**" "a/b/c" = true ∧
      «matches» "a/**" "a" = true ∧
      «matches» "a/*" "a" = false := by
  refine ⟨?_, by decide, by decide, by decide, by decide, by decide⟩
  intro pattern topic
  exact matchSegments_iff (segments pattern) (segments topic)

/-! ## Lemmas on delivery order and on the registry -/

namespace EventBus

theorem mem_insertByPriority (a sub : Subscription) (subs : List Subscription) :
    a ∈ insertByPriority sub subs ↔ a = sub ∨ a ∈ subs := by
  rw [(insertByPriority_perm sub subs).mem_iff, List.mem_cons]

theorem insertByPriority_pairwise (sub : Subscription) (subs : List Subscription)
    (h : subs.Pairwise (fun a b => b.priority ≤ a.priority)) :
    (insertByPriority sub subs).Pairwise (fun a b => b.priority ≤ a.priority) := by
  induction subs with
  | nil => exact List.pairwise_singleton _ _
  | cons t ts ih =>
    obtain ⟨hhead, htail⟩ := List.pairwise_cons.mp h
    unfold insertByPriority
    by_cases hle : t.priority ≤ sub.priority
    · rw [if_pos hle]
      refine List.pairwise_cons.mpr ⟨?_, h⟩
      intro b hb
      rcases List.mem_cons.mp hb with hb | hb
      · rw [hb]
        exact hle
      · exact le_trans (hhead b hb) hle
    · rw [if_neg hle]
      refine List.pairwise_cons.mpr ⟨?_, ih htail⟩
      intro b hb
      rcases (mem_insertByPriority b sub ts).mp hb with hb | hb
      · rw [hb]
        omega
      · exact hhead b hb

theorem sortByPriority_pairwise (subs : List Subscription) :
    (sortByPriority subs).Pairwise (fun a b => b.priority ≤ a.priority) := by
  induction subs with
  | nil => exact List.Pairwise.nil
  | cons sub subs ih => exact insertByPriority_pairwise sub (sortByPriority subs) ih

theorem filter_insertByPriority (p : Int) (sub : Subscription) (subs : List Subscription) :
    (insertByPriority sub subs).filter (fun s => decide (s.priority = p)) =
      (sub :: subs).filter (fun s => decide (s.priority = p)) := by
  induction subs with
  | nil => rfl
  | cons t ts ih =>
    unfold insertByPriority
    by_cases hle : t.priority ≤ sub.priority
    · rw [if_pos hle]
    · rw [if_neg hle, List.filter_cons, ih]
      by_cases ht : t.priority = p
      · have hs : ¬ sub.priority = p := by omega
        simp [List.filter_cons, ht, hs]
      · simp [List.filter_cons, ht]

theorem filter_sortByPriority (p : Int) (subs : List Subscription) :
    (sortByPriority subs).filter (fun s => decide (s.priority = p)) =
      subs.filter (fun s => decide (s.priority = p)) := by
  induction subs with
  | nil => rfl
  | cons sub subs ih =>
    show (insertByPriority sub (sortByPriority subs)).filter _ = _
    rw [filter_insertByPriority, List.filter_cons, List.filter_cons, ih]

theorem filter_ne_store (bus : EventBus) (sub : Subscription)
    (hfresh : ∀ old ∈ bus.subscriptions, old.id < bus.nextId) (hid : sub.id = bus.nextId) :
    (bus.store sub).subscriptions.filter (fun s => decide (s.id ≠ bus.nextId)) =
      bus.subscriptions := by
  unfold store
  simp only [List.filter_append]
  have h1 : bus.subscriptions.filter (fun s => decide (s.id ≠ bus.nextId)) =
      bus.subscriptions := by
    apply List.filter_eq_self.mpr
    intro old hold
    have := hfresh old hold
    simp only [decide_eq_true_eq]
    omega
  rw [h1]
  simp [hid]

theorem wellFormed_store (bus : EventBus) (sub : Subscription) (hwf : bus.WellFormed)
    (hid : sub.id = bus.nextId) : (bus.store sub).WellFormed := by
  obtain ⟨hnodup, hlt⟩ := hwf
  refine ⟨?_, ?_⟩
  · simp only [store, List.map_append, List.map_cons, List.map_nil]
    rw [List.nodup_append]
    refine ⟨hnodup, List.nodup_singleton _, ?_⟩
    intro x hx hx2
    obtain ⟨old, hold, rfl⟩ := List.mem_map.mp hx
    have h1 := hlt old hold
    have h2 : old.id = sub.id := List.mem_singleton.mp hx2
    omega
  · intro old hold
    rcases (mem_store bus old sub).mp hold with h | h
    · have := hlt old h
      show old.id < bus.nextId + 1
      omega
    · show old.id < bus.nextId + 1
      rw [h, hid]
      omega

theorem wellFormed_subscribe (bus bus1 : EventBus) (pattern subscriberId : String)
    (target : Option Nat) (options : SubscriptionOptions) (id : Nat)
    (hwf : bus.WellFormed)
    (h : bus.subscribe pattern subscriberId target options = Except.ok (id, bus1)) :
    bus1.WellFormed := by
  unfold subscribe at h
  split at h
  · injection h with h
    injection h with _ h2
    rw [← h2]
    exact wellFormed_store bus _ hwf rfl
  · simp at h

theorem wellFormed_filter (bus : EventBus) (keep : Subscription → Bool)
    (hwf : bus.WellFormed) :
    ({ bus with subscriptions := bus.subscriptions.filter keep } : EventBus).WellFormed := by
  obtain ⟨hnodup, hlt⟩ := hwf
  refine ⟨?_, ?_⟩
  · exact List.Nodup.sublist (List.Sublist.map _ (List.filter_sublist _)) hnodup
  · intro old hold
    exact hlt old (List.mem_filter.mp hold).1

theorem wellFormed_unsubscribe (bus : EventBus) (subscriptionId : Nat)
    (hwf : bus.WellFormed) : (bus.unsubscribe subscriptionId).2.WellFormed :=
  wellFormed_filter bus _ hwf

theorem wellFormed_unsubscribeAll (bus : EventBus) (subscriberId : String)
    (hwf : bus.WellFormed) : (bus.unsubscribeAll subscriberId).2.WellFormed :=
  wellFormed_filter bus _ hwf

theorem servedBefore_append (ds extra : List Delivery) (a b : Subscription)
    (h : servedBefore ds a b = true) : servedBefore (ds ++ extra) a b = true := by
  induction ds with
  | nil => simp [servedBefore] at h
  | cons d ds ih =>
    rw [List.cons_append]
    unfold servedBefore at h ⊢
    by_cases hb : d.serves b = true
    · rw [if_pos hb] at h
      exact absurd h Bool.false_ne_true
    · rw [if_neg hb] at h ⊢
      by_cases ha : d.serves a = true
      · rw [if_pos ha] at h ⊢
        rw [List.any_append, h]
        rfl
      · rw [if_neg ha] at h ⊢
        exact ih h

theorem servedBefore_targetDeliveries (event : Event) (subs : List Subscription)
    (a b : Subscription) (hnodup : (subs.map Subscription.id).Nodup)
    (hsub : List.Sublist [a, b] subs) (ha : a.deliveryTarget.isSome = true)
    (hb : b.deliveryTarget.isSome = true) :
    servedBefore (targetDeliveries event subs) a b = true := by
  induction subs with
  | nil => simp at hsub
  | cons s rest ih =>
    rw [List.map_cons, List.nodup_cons] at hnodup
    obtain ⟨hfresh, hrest⟩ := hnodup
    have hne : ∀ x ∈ rest, s.id ≠ x.id := by
      intro x hx hid
      exact hfresh (hid ▸ List.mem_map_of_mem Subscription.id hx)
    rcases List.sublist_cons_iff.mp hsub with hskip | ⟨r, hr, hrsub⟩
    · have hamem : a ∈ rest := hskip.subset (by simp)
      have hbmem : b ∈ rest := hskip.subset (by simp)
      cases hs : s.deliveryTarget with
      | none =>
        have : targetDeliveries event (s :: rest) = targetDeliveries event rest := by
          simp [targetDeliveries, hs]
        rw [this]
        exact ih hrest hskip
      | some tg =>
        have : targetDeliveries event (s :: rest) =
            Delivery.toTarget s.id tg event :: targetDeliveries event rest := by
          simp [targetDeliveries, hs]
        rw [this]
        unfold servedBefore
        simp only [Delivery.serves, hb, ha, Bool.true_and, decide_eq_true_eq,
          hne b hbmem, hne a hamem, if_false]
        exact ih hrest hskip
    · injection hr with h1 h2
      subst h1
      subst h2
      have hbmem : b ∈ rest := hrsub.subset (by simp)
      obtain ⟨tga, htga⟩ := Option.isSome_iff_exists.mp ha
      obtain ⟨tgb, htgb⟩ := Option.isSome_iff_exists.mp hb
      have : targetDeliveries event (a :: rest) =
          Delivery.toTarget a.id tga event :: targetDeliveries event rest := by
        simp [targetDeliveries, htga]
      rw [this]
      unfold servedBefore
      simp only [Delivery.serves, hb, ha, Bool.true_and, decide_eq_true_eq,
        hne b hbmem, if_false, if_true]
      rw [List.any_eq_true]
      exact ⟨Delivery.toTarget b.id tgb event,
        mem_targetDeliveries event rest b tgb hbmem htgb, by simp [Delivery.serves, hb]⟩

theorem sublist_pair_of_mem (l : List Subscription) (a b : Subscription)
    (ha : a ∈ l) (hb : b ∈ l) (hne : a ≠ b) :
    List.Sublist [a, b] l ∨ List.Sublist [b, a] l := by
  induction l with
  | nil => simp at ha
  | cons s rest ih =>
    rcases List.mem_cons.mp ha with ha | ha <;> rcases List.mem_cons.mp hb with hb | hb
    · exact absurd (ha.trans hb.symm) hne
    · left
      rw [ha]
      exact List.cons_sublist_cons.mpr (List.singleton_sublist.mpr hb)
    · right
      rw [hb]
      exact List.cons_sublist_cons.mpr (List.singleton_sublist.mpr ha)
    · rcases ih ha hb with h | h
      · exact Or.inl (List.Sublist.cons s h)
      · exact Or.inr (List.Sublist.cons s h)

theorem notifiedFor_keeps_registry_order (bus : EventBus) (topic senderId : String)
    (a b : Subscription) (ha : a ∈ bus.notifiedFor topic senderId)
    (hb : b ∈ bus.notifiedFor topic senderId) (hprio : a.priority = b.priority)
    (hreg : List.Sublist [a, b] bus.subscriptions) :
    List.Sublist [a, b] (bus.notifiedFor topic senderId) := by
  obtain ⟨_, ham, haf⟩ := (mem_notifiedFor bus topic senderId a).mp ha
  obtain ⟨_, hbm, hbf⟩ := (mem_notifiedFor bus topic senderId b).mp hb
  have hfil : (bus.notifiedFor topic senderId).filter
      (fun s => decide (s.priority = a.priority)) =
      ((bus.subscriptions.filter (fun sub => «matches» sub.pattern topic)).filter
        (fun sub => !selfFiltered sub senderId)).filter
        (fun s => decide (s.priority = a.priority)) := by
    unfold notifiedFor
    exact filter_sortByPriority a.priority _
  have h1 : List.Sublist
      ((([a, b].filter (fun sub => «matches» sub.pattern topic)).filter
        (fun sub => !selfFiltered sub senderId)).filter
        (fun s => decide (s.priority = a.priority)))
      (((bus.subscriptions.filter (fun sub => «matches» sub.pattern topic)).filter
        (fun sub => !selfFiltered sub senderId)).filter
        (fun s => decide (s.priority = a.priority))) :=
    ((hreg.filter _).filter _).filter _
  have h2 : (([a, b].filter (fun sub => «matches» sub.pattern topic)).filter
        (fun sub => !selfFiltered sub senderId)).filter
        (fun s => decide (s.priority = a.priority)) = [a, b] := by
    simp [List.filter_cons, ham, hbm, haf, hbf, hprio]
  rw [h2, ← hfil] at h1
  exact h1.trans (List.filter_sublist _)

theorem countP_isBroadcast_targetDeliveries (event : Event) (subs : List Subscription) :
    (targetDeliveries event subs).countP Delivery.isBroadcast = 0 := by
  induction subs with
  | nil => rfl
  | cons s rest ih =>
    unfold targetDeliveries
    split
    · rw [List.countP_cons, ih]
      rfl
    · exact ih

theorem not_servedBefore_around_broadcast (ds : List Delivery) (a b c : Subscription)
    (ha : a.deliveryTarget = none) (hc : c.deliveryTarget = none) :
    ¬ (servedBefore ds a b = true ∧ servedBefore ds b c = true) := by
  have hsame : ∀ d : Delivery, d.serves a = d.serves c := by
    intro d
    cases d <;> simp [Delivery.serves, ha, hc]
  induction ds with
  | nil => simp [servedBefore]
  | cons d ds ih =>
    rintro ⟨h1, h2⟩
    unfold servedBefore at h1 h2
    by_cases hb : d.serves b = true
    · rw [if_pos hb] at h1
      exact Bool.false_ne_true h1
    · rw [if_neg hb] at h1 h2
      by_cases hdc : d.serves c = true
      · rw [if_pos hdc] at h2
        exact Bool.false_ne_true h2
      · rw [if_neg hdc] at h2
        rw [hsame d, if_neg hdc] at h1
        exact ih ⟨h1, h2⟩

end EventBus

/-! ## Claims on delivery order and on the registry -/

/-- C11, as stated, fails for subscriptions without a delivery target. Three subscribes
to "orders/created": priority 100 without target, priority 50 with a target, priority
0 without target. The publish notifies them in that order but makes the delivery to
the target first and the one broadcast after it, so the priority-100 subscription is
not delivered to before the priority-50 one. No placement of a broadcast helps: in no
sequence of deliveries is a target-less subscription served before a third
subscription and that one before another target-less subscription. -/
theorem broadcast_breaks_delivery_order :
    (∃ r, (((EventBus.empty.afterSubscribe "orders/created" "com.audit.plugin" none
              { priority := 100 }).afterSubscribe "orders/created" "com.rules.plugin"
              (some 7) { priority := 50 }).afterSubscribe "orders/created"
              "com.stats.plugin" none { priority := 0 }).publish "orders/created" []
            "com.yourco.orders" = Except.ok r ∧
        r.notifiedCount = 3 ∧
        r.notified.map (fun sub => (sub.id, sub.priority, sub.deliveryTarget)) =
          [(0, 100, none), (1, 50, some 7), (2, 0, none)] ∧
        r.deliveries.map EventBus.Delivery.subscriptionId = [some 1, none] ∧
        ∃ a ∈ r.notified, ∃ b ∈ r.notified,
          b.priority < a.priority ∧ EventBus.servedBefore r.deliveries a b = false) ∧
      ∀ (ds : List EventBus.Delivery) (a b c : Subscription),
        a.deliveryTarget = none → c.deliveryTarget = none →
        ¬ (EventBus.servedBefore ds a b = true ∧ EventBus.servedBefore ds b c = true) := by
  refine ⟨⟨_, EventBus.publish_ok _ "orders/created" [] "com.yourco.orders" (by decide),
    by decide, by decide, by decide,
    ⟨{ id := 0, pattern := "orders/created", subscriberId := "com.audit.plugin",
       priority := 100, receiveOwnEvents := false, deliveryTarget := none },
      by decide,
      { id := 1, pattern := "orders/created", subscriberId := "com.rules.plugin",
        priority := 50, receiveOwnEvents := false, deliveryTarget := some 7 },
      by decide, by decide, by decide⟩⟩, ?_⟩
  intro ds a b c ha hc
  exact EventBus.not_servedBefore_around_broadcast ds a b c ha hc

/-- C11, amended: delivery order is a stable sort by descending priority for the
subscriptions that have a delivery target. For every bus with fresh ids and every
publish of a valid topic: the notified subscriptions are listed with no subscription
before one of higher priority and, within one priority, in registry order; of two
notified subscriptions with targets, the one of higher priority is delivered to
first, and of two with equal priority the one standing earlier in the registry is
delivered to first; the subscriptions without target are served together by one
broadcast. The registry is in registration order: `subscribe` puts the new
subscription after those already registered. For priorities 10, 5, 10, 0 subscribed
in that order with targets, the deliveries go to the first 10, the second 10, the 5
and the 0. -/
theorem publish_delivery_order (bus : EventBus) (topic : String) (payload : QVariantMap)
    (senderId : String) (hwf : bus.WellFormed) (ht : validTopic topic = true) :
    (∃ r, bus.publish topic payload senderId = Except.ok r ∧
        r.notified.Pairwise (fun a b => b.priority ≤ a.priority) ∧
        (∀ p : Int, r.notified.filter (fun s => decide (s.priority = p)) =
          (bus.subscriptions.filter
            (fun sub => «matches» sub.pattern topic &&
              !EventBus.selfFiltered sub senderId)).filter
            (fun s => decide (s.priority = p))) ∧
        (∀ a ∈ r.notified, ∀ b ∈ r.notified,
          a.deliveryTarget.isSome = true → b.deliveryTarget.isSome = true →
          b.priority < a.priority → EventBus.servedBefore r.deliveries a b = true) ∧
        (∀ a ∈ r.notified, ∀ b ∈ r.notified,
          a.deliveryTarget.isSome = true → b.deliveryTarget.isSome = true →
          a.priority = b.priority → List.Sublist [a, b] bus.subscriptions →
          EventBus.servedBefore r.deliveries a b = true) ∧
        r.deliveries.filterMap EventBus.Delivery.subscriptionId =
          (r.notified.filter (fun sub => sub.deliveryTarget.isSome)).map Subscription.id ∧
        r.deliveries.countP EventBus.Delivery.isBroadcast =
          (if r.notified.any (fun sub => sub.deliveryTarget.isNone) then 1 else 0)) ∧
      (∀ (pattern subscriberId : String) (target : Option Nat)
          (options : SubscriptionOptions) (id : Nat) (bus1 : EventBus),
        bus.subscribe pattern subscriberId target options = Except.ok (id, bus1) →
        ∃ new : Subscription, new.id = id ∧ new.priority = options.priority ∧
          bus1.subscriptions = bus.subscriptions ++ [new]) ∧
      ∃ r, ((((EventBus.empty.afterSubscribe "orders/created" "com.a" (some 0)
                { priority := 10 }).afterSubscribe "orders/created" "com.b" (some 1)
                { priority := 5 }).afterSubscribe "orders/created" "com.c" (some 2)
                { priority := 10 }).afterSubscribe "orders/created" "com.d" (some 3)
                { priority := 0 }).publish "orders/created" [] "com.yourco.orders" =
            Except.ok r ∧
        r.notified.map (fun sub => (sub.id, sub.priority)) =
          [(0, 10), (2, 10), (1, 5), (3, 0)] ∧
        r.deliveries.map EventBus.Delivery.subscriptionId =
          [some 0, some 2, some 1, some 3] := by
  have hsorted := EventBus.sortByPriority_pairwise
    ((bus.subscriptions.filter (fun sub => «matches» sub.pattern topic)).filter
      (fun sub => !EventBus.selfFiltered sub senderId))
  have hnodup : ((bus.notifiedFor topic senderId).map Subscription.id).Nodup := by
    have hperm := (EventBus.notifiedFor_perm bus topic senderId).map Subscription.id
    rw [hperm.nodup_iff]
    exact List.Nodup.sublist (List.Sublist.map _ (List.filter_sublist _)) hwf.1
  have hserved : ∀ a b, List.Sublist [a, b] (bus.notifiedFor topic senderId) →
      a.deliveryTarget.isSome = true → b.deliveryTarget.isSome = true →
      EventBus.servedBefore
        (EventBus.deliver { topic := topic, payload := payload, senderId := senderId }
          (bus.notifiedFor topic senderId)) a b = true := by
    intro a b hsub ha hb
    unfold EventBus.deliver
    exact EventBus.servedBefore_append _ _ a b
      (EventBus.servedBefore_targetDeliveries _ _ a b hnodup hsub ha hb)
  refine ⟨⟨_, EventBus.publish_ok bus topic payload senderId ht, hsorted, ?_, ?_, ?_, ?_, ?_⟩,
    ?_, ⟨_, EventBus.publish_ok _ "orders/created" [] "com.yourco.orders" (by decide),
      by decide, by decide⟩⟩
  · intro p
    show (bus.notifiedFor topic senderId).filter _ = _
    unfold EventBus.notifiedFor
    rw [EventBus.filter_sortByPriority]
    congr 1
    rw [List.filter_filter]
    congr 1
    funext sub
    exact Bool.and_comm _ _
  · intro a ha b hb hta htb hlt
    have hne : a ≠ b := by
      intro h
      rw [h] at hlt
      exact lt_irrefl _ hlt
    rcases EventBus.sublist_pair_of_mem _ a b ha hb hne with h | h
    · exact hserved a b h hta htb
    · have hle : a.priority ≤ b.priority :=
        (List.pairwise_iff_forall_sublist.mp hsorted) h
      omega
  · intro a ha b hb hta htb hprio hreg
    exact hserved a b
      (EventBus.notifiedFor_keeps_registry_order bus topic senderId a b ha hb hprio hreg)
      hta htb
  · show (EventBus.deliver _ (bus.notifiedFor topic senderId)).filterMap _ = _
    unfold EventBus.deliver
    rw [List.filterMap_append]
    have h1 : ∀ subs : List Subscription,
        (EventBus.targetDeliveries
          { topic := topic, payload := payload, senderId := senderId } subs).filterMap
          EventBus.Delivery.subscriptionId =
        (subs.filter (fun sub => sub.deliveryTarget.isSome)).map Subscription.id := by
      intro subs
      induction subs with
      | nil => rfl
      | cons s rest ih =>
        cases hs : s.deliveryTarget with
        | none => simp [EventBus.targetDeliveries, hs, ih]
        | some tg =>
          simp [EventBus.targetDeliveries, hs, ih, EventBus.Delivery.subscriptionId]
    rw [h1]
    split <;> simp [EventBus.Delivery.subscriptionId]
  · show (EventBus.deliver _ (bus.notifiedFor topic senderId)).countP _ = _
    unfold EventBus.deliver
    rw [List.countP_append, EventBus.countP_isBroadcast_targetDeliveries]
    split <;> simp [EventBus.Delivery.isBroadcast]
  · intro pattern subscriberId target options id bus1 hsub
    unfold EventBus.subscribe at hsub
    split at hsub
    · injection hsub with h
      injection h with h1 h2
      refine ⟨bus.newSubscription pattern subscriberId target options, h1, rfl, ?_⟩
      rw [← h2]
      rfl
    · simp at hsub

theorem publish_delivery_order_witness :
    ({ subscriptions :=
          [{ id := 0, pattern := "orders/created", subscriberId := "com.audit.plugin",
             priority := 0, receiveOwnEvents := false, deliveryTarget := some 0 },
           { id := 1, pattern := "orders/*", subscriberId := "com.rules.plugin",
             priority := 100, receiveOwnEvents := false, deliveryTarget := some 1 }],
        nextId := 2, eventCounts := [] } : EventBus).WellFormed ∧
      validTopic "orders/created" = true ∧
      ∃ r, (({ subscriptions :=
                [{ id := 0, pattern := "orders/created", subscriberId := "com.audit.plugin",
                   priority := 0, receiveOwnEvents := false, deliveryTarget := some 0 },
                 { id := 1, pattern := "orders/*", subscriberId := "com.rules.plugin",
                   priority := 100, receiveOwnEvents := false, deliveryTarget := some 1 }],
               nextId := 2, eventCounts := [] } : EventBus).publish "orders/created" []
              "com.yourco.orders" = Except.ok r) ∧
        r.notified.Pairwise (fun a b => b.priority ≤ a.priority) ∧
          r.deliveries.filterMap EventBus.Delivery.subscriptionId =
            (r.notified.filter (fun sub => sub.deliveryTarget.isSome)).map
              Subscription.id :=
  ⟨⟨by decide, by decide⟩, by decide,
   (publish_delivery_order
      { subscriptions :=
          [{ id := 0, pattern := "orders/created", subscriberId := "com.audit.plugin",
             priority := 0, receiveOwnEvents := false, deliveryTarget := some 0 },
           { id := 1, pattern := "orders/*", subscriberId := "com.rules.plugin",
             priority := 100, receiveOwnEvents := false, deliveryTarget := some 1 }],
        nextId := 2, eventCounts := [] }
      "orders/created" [] "com.yourco.orders" ⟨by decide, by decide⟩ (by decide)).1.imp
     (fun _ h => ⟨h.1, h.2.1, h.2.2.2.2.2.1⟩)⟩

/-- C12: `unsubscribeAll` is idempotent. For every bus state and subscriber id, the call
returns the number of subscriptions the subscriber owns and removes exactly those (the
others stay, in their order); a second call right after returns 0 and leaves the bus
as it is. The operation has no failure result. -/
theorem unsubscribeAll_idempotent (bus : EventBus) (subscriberId : String) :
    (bus.unsubscribeAll subscriberId).1 =
        bus.subscriptions.countP (fun sub => decide (sub.subscriberId = subscriberId)) ∧
      (bus.unsubscribeAll subscriberId).2.subscriptions =
        bus.subscriptions.filter (fun sub => decide (sub.subscriberId ≠ subscriberId)) ∧
      (∀ sub, sub ∈ (bus.unsubscribeAll subscriberId).2.subscriptions ↔
        (sub ∈ bus.subscriptions ∧ sub.subscriberId ≠ subscriberId)) ∧
      ((bus.unsubscribeAll subscriberId).2.unsubscribeAll subscriberId).1 = 0 ∧
      ((bus.unsubscribeAll subscriberId).2.unsubscribeAll subscriberId).2 =
        (bus.unsubscribeAll subscriberId).2 := by
  refine ⟨?_, rfl, ?_, ?_, ?_⟩
  · simp [EventBus.unsubscribeAll, List.countP_eq_length_filter]
  · intro sub
    simp [EventBus.unsubscribeAll, List.mem_filter]
  · simp [EventBus.unsubscribeAll, List.filter_filter]
  · simp [EventBus.unsubscribeAll, List.filter_filter]

/-- C13: subscribe then unsubscribe is neutral. For every bus state with fresh ids,
every valid pattern, every subscriber id, target, options and topic: `subscribe`
succeeds, `unsubscribe` of the returned id answers true, and afterwards
`subscriberCount(topic)` has its value from before the subscribe; the registry holds
the same subscriptions as before. -/
theorem subscribe_unsubscribe_roundtrip (bus : EventBus) (pattern subscriberId topic : String)
    (target : Option Nat) (options : SubscriptionOptions)
    (hwf : bus.WellFormed) (hp : validPattern pattern = true) :
    ∃ id bus1,
      bus.subscribe pattern subscriberId target options = Except.ok (id, bus1) ∧
      (bus1.unsubscribe id).1 = true ∧
      (bus1.unsubscribe id).2.subscriberCount topic = bus.subscriberCount topic ∧
      (bus1.unsubscribe id).2.subscriptions = bus.subscriptions := by
  have hfilter := EventBus.filter_ne_store bus
    (bus.newSubscription pattern subscriberId target options) hwf.2 rfl
  refine ⟨_, _, EventBus.subscribe_ok bus pattern subscriberId target options hp,
    ?_, ?_, hfilter⟩
  · simp [EventBus.unsubscribe, EventBus.store, EventBus.newSubscription]
  · unfold EventBus.subscriberCount
    show List.countP _ ((bus.store _).subscriptions.filter _) = _
    rw [hfilter]

theorem subscribe_unsubscribe_roundtrip_witness :
    EventBus.empty.WellFormed ∧ validPattern "orders/*" = true ∧
      ∃ id bus1,
        EventBus.empty.subscribe "orders/*" "com.audit.plugin" none {} =
          Except.ok (id, bus1) ∧
        (bus1.unsubscribe id).1 = true ∧
        (bus1.unsubscribe id).2.subscriberCount "orders/created" =
          EventBus.empty.subscriberCount "orders/created" ∧
        (bus1.unsubscribe id).2.subscriptions = EventBus.empty.subscriptions :=
  ⟨EventBus.wellFormed_empty, by decide,
   subscribe_unsubscribe_roundtrip EventBus.empty "orders/*" "com.audit.plugin"
     "orders/created" none {} EventBus.wellFormed_empty (by decide)⟩

/-! ## Exact buffer update -/

namespace DemoService

/-- C15: exact buffer update. For every state with message list L and every accepted
event producing message m, the list after `onEventReceived` is the first 50 elements
of m followed by L; so the count becomes the minimum of the length of L plus one and
50, what follows m is the first 49 elements of L (the stored messages in their order,
only the last ones dropped), and m is the map built from the arguments. -/
theorem onEventReceived_exact_update (self : DemoService) (now topic : String)
    (data : QVariantMap) (senderId : String)
    (hp : startsWith topic self.m_topicPrefix = true) (hs : senderId ≠ self.m_pluginId) :
    (self.onEventReceived now topic data senderId).1.receivedMessages =
        (QVariant.map (buildMessage now topic data senderId) ::
          self.receivedMessages).take 50 ∧
      (self.onEventReceived now topic data senderId).1.receivedMessages.length =
        min (self.receivedMessages.length + 1) 50 ∧
      (self.onEventReceived now topic data senderId).1.messageCount =
        ((min (self.receivedMessages.length + 1) 50 : Nat) : Int) ∧
      (self.onEventReceived now topic data senderId).1.receivedMessages.tail =
        self.receivedMessages.take 49 ∧
      List.IsPrefix (self.onEventReceived now topic data senderId).1.receivedMessages.tail
        self.receivedMessages := by
  have hmax : MAX_MESSAGES = 50 := rfl
  have hlist : (self.onEventReceived now topic data senderId).1.m_receivedMessages =
      (QVariant.map (buildMessage now topic data senderId) ::
        self.m_receivedMessages).take 50 := by
    rw [onEventReceived_accepted self now topic data senderId hp hs]
    rfl
  have hlen : (self.onEventReceived now topic data senderId).1.m_receivedMessages.length =
      min (self.m_receivedMessages.length + 1) 50 := by
    rw [hlist, List.length_take, List.length_cons, Nat.min_comm]
  have htail : (self.onEventReceived now topic data senderId).1.m_receivedMessages.tail =
      self.m_receivedMessages.take 49 := by
    rw [hlist]
    rfl
  refine ⟨hlist, hlen, ?_, htail, ?_⟩
  · rw [messageCount_of_le _ (by rw [hlen, hmax]; omega), hlen]
    rfl
  · show List.IsPrefix (self.onEventReceived now topic data senderId).1.m_receivedMessages.tail
      self.m_receivedMessages
    rw [htail]
    exact List.take_prefix 49 self.m_receivedMessages

theorem onEventReceived_exact_update_witness :
    startsWith "orders/created" (DemoService.new "com.yourco.orders").m_topicPrefix = true ∧
      "com.rules" ≠ (DemoService.new "com.yourco.orders").m_pluginId ∧
      ((DemoService.new "com.yourco.orders").onEventReceived "12:00:00.000"
        "orders/created" [] "com.rules").1.receivedMessages.length =
        min ((DemoService.new "com.yourco.orders").receivedMessages.length + 1) 50 :=
  ⟨by decide, by decide,
   (onEventReceived_exact_update (DemoService.new "com.yourco.orders") "12:00:00.000"
      "orders/created" [] "com.rules" (by decide) (by decide)).2.1⟩

end DemoService

/-! ## QML page lookup -/

namespace OrdersPlugin

theorem scanSearchPaths_first (env : Env) (hempty : env.fileExists "" = false)
    (paths : List String) :
    ((scanSearchPaths env paths).2 = "" ∧
        ∀ b ∈ paths, env.fileExists (candidate env b) = false) ∨
      ∃ (i : Nat) (b : String), paths[i]? = some b ∧
        env.fileExists (candidate env b) = true ∧
        (∀ (k : Nat) (c : String), k < i → paths[k]? = some c →
          env.fileExists (candidate env c) = false) ∧
        (scanSearchPaths env paths).2 = candidate env b ∧ candidate env b ≠ "" := by
  induction paths with
  | nil =>
    left
    exact ⟨rfl, fun b hb => by simp at hb⟩
  | cons basePath rest ih =>
    unfold scanSearchPaths
    by_cases hex : env.fileExists (candidate env basePath) = true
    · right
      refine ⟨0, basePath, by simp, hex, ?_, ?_, ?_⟩
      · intro k c hk
        omega
      · rw [if_pos hex]
      · intro hcand
        rw [hcand, hempty] at hex
        exact Bool.false_ne_true hex
    · rw [if_neg hex]
      have hex2 : env.fileExists (candidate env basePath) = false := by
        simpa using hex
      rcases ih with ⟨hnone, hall⟩ | ⟨i, b, hget, hb, hbefore, hscan, hne⟩
      · left
        refine ⟨hnone, ?_⟩
        intro b hb
        rcases List.mem_cons.mp hb with hb | hb
        · rw [hb]
          exact hex2
        · exact hall b hb
      · right
        refine ⟨i + 1, b, by simpa using hget, hb, ?_, hscan, hne⟩
        intro k c hk hc
        cases k with
        | zero =>
          simp at hc
          rw [← hc]
          exact hex2
        | succ j => exact hbefore j c (by omega) (by simpa using hc)

theorem registerMenu_no_route (env : Env) (menu : Option (MenuItem → Bool))
    (orderCount : Int) :
    (registerMenu env menu orderCount).filter Effect.isRegisterRoute = [] := by
  unfold registerMenu
  cases menu with
  | none => rfl
  | some registerItem =>
    simp only
    split <;> rfl

theorem splitOn_ne_nil (sep : Char) (cs : List Char) : splitOn sep cs ≠ [] := by
  cases cs with
  | nil => simp [splitOn]
  | cons c cs =>
    unfold splitOn
    split
    · simp
    · split <;> simp

theorem intercalate_cons_cons (sep a b : List Char) (t : List (List Char)) :
    List.intercalate sep (a :: b :: t) = a ++ sep ++ List.intercalate sep (b :: t) := by
  simp [List.intercalate, List.intersperse]

theorem intercalate_splitOn (sep : Char) (cs : List Char) :
    List.intercalate [sep] (splitOn sep cs) = cs := by
  induction cs with
  | nil => simp [splitOn, List.intercalate]
  | cons c cs ih =>
    unfold splitOn
    cases hsplit : splitOn sep cs with
    | nil => exact absurd hsplit (splitOn_ne_nil sep cs)
    | cons piece pieces =>
      rw [hsplit] at ih
      by_cases hc : c = sep
      · rw [if_pos hc, intercalate_cons_cons, ih, hc]
        rfl
      · rw [if_neg hc]
        cases pieces with
        | nil =>
          simp [List.intercalate] at ih ⊢
          exact ih
        | cons q qs =>
          rw [intercalate_cons_cons] at ih ⊢
          simp only [List.cons_append, ih]

theorem not_mem_splitOn (sep : Char) (cs piece : List Char)
    (h : piece ∈ splitOn sep cs) : sep ∉ piece := by
  induction cs generalizing piece with
  | nil =>
    simp [splitOn] at h
    simp [h]
  | cons c cs ih =>
    unfold splitOn at h
    by_cases hc : c = sep
    · rw [if_pos hc] at h
      rcases List.mem_cons.mp h with h | h
      · simp [h]
      · exact ih piece h
    · rw [if_neg hc] at h
      cases hsplit : splitOn sep cs with
      | nil => exact absurd hsplit (splitOn_ne_nil sep cs)
      | cons q qs =>
        rw [hsplit] at h ih
        rcases List.mem_cons.mp h with h | h
        · rw [h]
          have := ih q (List.mem_cons_self q qs)
          intro hmem
          rcases List.mem_cons.mp hmem with hm | hm
          · exact hc hm.symm
          · exact this hm
        · exact ih piece (List.mem_cons_of_mem q h)

/-- C16: the QML page lookup follows the documented priority order. With the navigation
service available, `registerRoutes` scans these bases in this order: the non-empty
entries of `QML_IMPORT_PATH` in their listed order (the pieces between list separators,
which joined by the separator give the variable back), then the clean path of
`MPF_SDK_ROOT/qml` when `MPF_SDK_ROOT` is not empty, then of `appDir/../qml`, then of
`appDir/qml`. It registers route "orders" with the file URL of the clean path of
`base/YourCo/Orders/OrdersPage.qml` for the first base where that file exists, the
file existing under no earlier base; when it exists under no base, no route is
registered; at most one route is registered. -/
theorem registerRoutes_lookup_order (env : Env) (menu : Option (MenuItem → Bool))
    (orderCount : Int) (hempty : env.fileExists "" = false) :
    (∃ pieces : List (List Char),
        List.intercalate [env.listSeparator] pieces = env.QML_IMPORT_PATH.data ∧
        (∀ piece ∈ pieces, env.listSeparator ∉ piece) ∧
        searchPaths env =
          (pieces.filter (fun piece => !piece.isEmpty)).map String.mk ++
            (if env.MPF_SDK_ROOT ≠ "" then [env.cleanPath (env.MPF_SDK_ROOT ++ "/qml")]
             else []) ++
            [env.cleanPath (env.applicationDirPath ++ "/../qml"),
             env.cleanPath (env.applicationDirPath ++ "/qml")]) ∧
      (((registerRoutes env true menu orderCount).filter Effect.isRegisterRoute = [] ∧
          ∀ b ∈ searchPaths env,
            env.fileExists (env.cleanPath (b ++ "/YourCo/Orders/OrdersPage.qml")) = false) ∨
        ∃ (i : Nat) (b : String), (searchPaths env)[i]? = some b ∧
          env.fileExists (env.cleanPath (b ++ "/YourCo/Orders/OrdersPage.qml")) = true ∧
          (∀ (k : Nat) (c : String), k < i → (searchPaths env)[k]? = some c →
            env.fileExists (env.cleanPath (c ++ "/YourCo/Orders/OrdersPage.qml")) = false) ∧
          (registerRoutes env true menu orderCount).filter Effect.isRegisterRoute =
            [Effect.navRegisterRoute "orders"
              (env.fromLocalFile
                (env.cleanPath (b ++ "/YourCo/Orders/OrdersPage.qml")))]) ∧
      ((registerRoutes env true menu orderCount).filter Effect.isRegisterRoute).length ≤ 1 := by
  have hpaths : searchPaths env =
      ((splitOn env.listSeparator env.QML_IMPORT_PATH.data).filter
          (fun piece => !piece.isEmpty)).map String.mk ++
        (if env.MPF_SDK_ROOT ≠ "" then [env.cleanPath (env.MPF_SDK_ROOT ++ "/qml")]
         else []) ++
        [env.cleanPath (env.applicationDirPath ++ "/../qml"),
         env.cleanPath (env.applicationDirPath ++ "/qml")] := by
    unfold searchPaths splitSkipEmptyParts
    by_cases hsdk : env.MPF_SDK_ROOT = ""
    · simp [hsdk]
    · simp [hsdk]
  have hcases := scanSearchPaths_first env hempty (searchPaths env)
  have hroutes : ((registerRoutes env true menu orderCount).filter Effect.isRegisterRoute = [] ∧
        ∀ b ∈ searchPaths env,
          env.fileExists (env.cleanPath (b ++ "/YourCo/Orders/OrdersPage.qml")) = false) ∨
      ∃ (i : Nat) (b : String), (searchPaths env)[i]? = some b ∧
        env.fileExists (env.cleanPath (b ++ "/YourCo/Orders/OrdersPage.qml")) = true ∧
        (∀ (k : Nat) (c : String), k < i → (searchPaths env)[k]? = some c →
          env.fileExists (env.cleanPath (c ++ "/YourCo/Orders/OrdersPage.qml")) = false) ∧
        (registerRoutes env true menu orderCount).filter Effect.isRegisterRoute =
          [Effect.navRegisterRoute "orders"
            (env.fromLocalFile (env.cleanPath (b ++ "/YourCo/Orders/OrdersPage.qml")))] := by
    rcases hcases with ⟨hnone, hall⟩ | ⟨i, b, hget, hb, hbefore, hscan, hne⟩
    · left
      refine ⟨?_, hall⟩
      unfold registerRoutes
      simp [hnone]
    · right
      refine ⟨i, b, hget, hb, hbefore, ?_⟩
      unfold registerRoutes
      simp only [if_true, hscan, if_neg hne, List.filter_cons, Effect.isRegisterRoute,
        registerMenu_no_route]
      rfl
  refine ⟨⟨splitOn env.listSeparator env.QML_IMPORT_PATH.data,
    intercalate_splitOn _ _, fun piece h => not_mem_splitOn _ _ piece h, hpaths⟩,
    hroutes, ?_⟩
  rcases hroutes with ⟨h, _⟩ | ⟨_, _, _, _, _, h⟩
  · rw [h]
    exact Nat.zero_le 1
  · rw [h]
    exact Nat.le_refl 1

theorem registerRoutes_lookup_order_witness :
    ({ QML_IMPORT_PATH := "/dev/qml::/opt/extra", MPF_SDK_ROOT := "/opt/sdk",
       applicationDirPath := "/opt/app/bin", listSeparator := ':',
       cleanPath := fun path => path,
       fileExists := fun path => decide (path = "/opt/sdk/qml/YourCo/Orders/OrdersPage.qml"),
       fromLocalFile := fun path => "file://" ++ path,
       tr := fun text => text } : Env).fileExists "" = false ∧
      ((registerRoutes
          { QML_IMPORT_PATH := "/dev/qml::/opt/extra", MPF_SDK_ROOT := "/opt/sdk",
            applicationDirPath := "/opt/app/bin", listSeparator := ':',
            cleanPath := fun path => path,
            fileExists := fun path =>
              decide (path = "/opt/sdk/qml/YourCo/Orders/OrdersPage.qml"),
            fromLocalFile := fun path => "file://" ++ path,
            tr := fun text => text }
          true none 3).filter Effect.isRegisterRoute).length ≤ 1 ∧
      searchPaths
          { QML_IMPORT_PATH := "/dev/qml::/opt/extra", MPF_SDK_ROOT := "/opt/sdk",
            applicationDirPath := "/opt/app/bin", listSeparator := ':',
            cleanPath := fun path => path,
            fileExists := fun path =>
              decide (path = "/opt/sdk/qml/YourCo/Orders/OrdersPage.qml"),
            fromLocalFile := fun path => "file://" ++ path,
            tr := fun text => text } =
        ["/dev/qml", "/opt/extra", "/opt/sdk/qml", "/opt/app/bin/../qml",
         "/opt/app/bin/qml"] ∧
      registerRoutes
          { QML_IMPORT_PATH := "/dev/qml::/opt/extra", MPF_SDK_ROOT := "/opt/sdk",
            applicationDirPath := "/opt/app/bin", listSeparator := ':',
            cleanPath := fun path => path,
            fileExists := fun path =>
              decide (path = "/opt/sdk/qml/YourCo/Orders/OrdersPage.qml"),
            fromLocalFile := fun path => "file://" ++ path,
            tr := fun text => text }
          true none 3 =
        [Effect.navRegisterRoute "orders"
          "file:///opt/sdk/qml/YourCo/Orders/OrdersPage.qml"] :=
  ⟨by decide,
   (registerRoutes_lookup_order
      { QML_IMPORT_PATH := "/dev/qml::/opt/extra", MPF_SDK_ROOT := "/opt/sdk",
        applicationDirPath := "/opt/app/bin", listSeparator := ':',
        cleanPath := fun path => path,
        fileExists := fun path =>
          decide (path = "/opt/sdk/qml/YourCo/Orders/OrdersPage.qml"),
        fromLocalFile := fun path => "file://" ++ path,
        tr := fun text => text }
      none 3 (by decide)).2.2,
   by decide, by rfl⟩

end OrdersPlugin

/-! ## DemoService and the bus together -/

theorem splitSegments_ne_nil (cs : List Char) : splitSegments cs ≠ [] := by
  cases cs with
  | nil => simp [splitSegments]
  | cons c cs =>
    unfold splitSegments
    split
    · simp
    · split <;> simp

theorem splitSegments_append_slash (a b : List Char) :
    splitSegments (a ++ '/' :: b) = splitSegments a ++ splitSegments b := by
  induction a with
  | nil => simp [splitSegments]
  | cons c a ih =>
    by_cases hc : c = '/'
    · simp [splitSegments, hc, ih]
    · have hcons : splitSegments (c :: (a ++ '/' :: b)) =
          match splitSegments (a ++ '/' :: b) with
          | [] => [[c]]
          | seg :: segs => (c :: seg) :: segs := by
        rw [splitSegments, if_neg hc]
      have hcons2 : splitSegments (c :: a) =
          match splitSegments a with
          | [] => [[c]]
          | seg :: segs => (c :: seg) :: segs := by
        rw [splitSegments, if_neg hc]
      rw [List.cons_append, hcons, hcons2, ih]
      cases hsplit : splitSegments a with
      | nil => exact absurd hsplit (splitSegments_ne_nil a)
      | cons seg segs => rfl

theorem matchSegments_append_multi (qs rs : List String) :
    matchSegments (qs ++ ["**"]) (qs ++ rs) = true := by
  induction qs with
  | nil => simp [matchSegments]
  | cons q qs ih => simp [matchSegments, segmentMatches, ih]

theorem matches_of_slash_boundary (a r : List Char) :
    «matches» (String.mk (a ++ ['/']) ++ "**") (String.mk (a ++ '/' :: r)) = true := by
  unfold «matches» segments
  have hpat : (String.mk (a ++ ['/']) ++ "**").data = a ++ '/' :: ['*', '*'] := by
    rw [String.data_append]
    simp
  rw [hpat, splitSegments_append_slash, splitSegments_append_slash, List.map_append,
    List.map_append]
  have hmulti : (splitSegments ['*', '*']).map String.mk = ["**"] := by decide
  rw [hmulti]
  exact matchSegments_append_multi _ _

theorem startsWith_iff (t p : String) :
    startsWith t p = true ↔ ∃ r, t.data = p.data ++ r := by
  unfold startsWith
  rw [List.isPrefixOf_iff_prefix]
  constructor
  · rintro ⟨r, hr⟩
    exact ⟨r, hr.symm⟩
  · rintro ⟨r, hr⟩
    exact ⟨r, hr.symm⟩

theorem append_demo_ne (pluginId : String) : pluginId ++ ".demo" ≠ pluginId := by
  intro h
  have hlen := congrArg String.length h
  rw [String.length_append] at hlen
  have h5 : ".demo".length = 5 := by decide
  omega

namespace EventBus

theorem applyEffects_connect (bus : EventBus) (self : DemoService) (topicPrefix : String)
    (hp : validPattern (topicPrefix ++ "**") = true) :
    bus.applyEffects (self.connectToEventBus topicPrefix).2 =
      bus.store (bus.newSubscription (topicPrefix ++ "**") (self.m_pluginId ++ ".demo")
        none {}) := by
  simp [DemoService.connectToEventBus, applyEffects, applyEffect, subscribeSimple,
    subscribe_ok _ _ _ _ _ hp]

theorem publish_reaches_stored (bus : EventBus) (sub : Subscription) (topic : String)
    (payload : QVariantMap) (senderId : String) (ht : validTopic topic = true)
    (hm : «matches» sub.pattern topic = true) (hne : sub.subscriberId ≠ senderId)
    (hnone : sub.deliveryTarget = none) :
    ∃ r, (bus.store sub).publish topic payload senderId = Except.ok r ∧
      sub ∈ r.notified ∧ 1 ≤ r.notifiedCount ∧
      Delivery.broadcast { topic := topic, payload := payload, senderId := senderId } ∈
        r.deliveries := by
  have hmem : sub ∈ (bus.store sub).notifiedFor topic senderId := by
    rw [mem_notifiedFor, mem_store]
    refine ⟨Or.inr rfl, hm, ?_⟩
    simp [selfFiltered, hne]
  refine ⟨_, publish_ok _ topic payload senderId ht, hmem, ?_, ?_⟩
  · exact List.length_pos_of_mem hmem
  · unfold deliver
    apply List.mem_append_right
    have hany : ((bus.store sub).notifiedFor topic senderId).any
        (fun s => s.deliveryTarget.isNone) = true := by
      rw [List.any_eq_true]
      exact ⟨sub, hmem, by simp [hnone]⟩
    rw [if_pos hany]
    exact List.mem_singleton.mpr rfl

end EventBus

/-- C14, as stated, fails: with topic prefix "ord" the service registers the pattern
"ord**", whose only segment is a literal; the topic "orders/created" starts with the
prefix and the service would record it (one `messagesChanged`), but the pattern does
not match it, so a publish of it notifies nobody and delivers nothing. -/
theorem demo_pattern_misses_topic :
    startsWith "orders/created" "ord" = true ∧
      ((DemoService.new "com.yourco.orders").connectToEventBus "ord").2 =
        [Effect.connectEventPublished,
         Effect.busSubscribeSimple "ord**" "com.yourco.orders.demo"] ∧
      «matches» ("ord" ++ "**") "orders/created" = false ∧
      (((DemoService.new "com.yourco.orders").connectToEventBus "ord").1.onEventReceived
        "12:00:00.000" "orders/created" [] "com.rules").2.countP
          Effect.isMessagesChanged = 1 ∧
      ∃ r, (EventBus.empty.applyEffects
            ((DemoService.new "com.yourco.orders").connectToEventBus "ord").2).publish
          "orders/created" [] "com.rules" = Except.ok r ∧
        r.notifiedCount = 0 ∧ r.deliveries.length = 0 := by
  refine ⟨by decide, rfl, by decide, by decide,
    ⟨_, EventBus.publish_ok _ "orders/created" [] "com.rules" (by decide), ?_, ?_⟩⟩
  · decide
  · decide

/-- C14, amended: the pattern DemoService subscribes with covers what its local filter
accepts when the prefix ends at a segment boundary. For every topic prefix p that is
empty or ends in `/` and every topic t that starts with p, the registered pattern (p
followed by `**`) matches t under the matching rules; and when the bus accepts the
pattern and the topic, a publish of t by any sender other than the service's own
subscriber id emits the broadcast `eventPublished`. -/
theorem demo_pattern_covers_segment_boundary (p t : String)
    (hpre : p = "" ∨ p.data.getLast? = some '/') (ht : startsWith t p = true) :
    «matches» (p ++ "**") t = true ∧
      ∀ (bus : EventBus) (self : DemoService) (payload : QVariantMap) (senderId : String),
        validPattern (p ++ "**") = true → validTopic t = true →
        senderId ≠ self.m_pluginId ++ ".demo" →
        ∃ r, (bus.applyEffects (self.connectToEventBus p).2).publish t payload senderId =
            Except.ok r ∧
          EventBus.Delivery.broadcast
            { topic := t, payload := payload, senderId := senderId } ∈ r.deliveries := by
  have hmatch : «matches» (p ++ "**") t = true := by
    rcases hpre with hpre | hpre
    · subst hpre
      have h1 : ("" : String) ++ "**" = "**" := by decide
      have h2 : segments "**" = ["**"] := by decide
      rw [h1]
      unfold «matches»
      rw [h2]
      simp [matchSegments]
    · obtain ⟨a, ha⟩ := List.getLast?_eq_some_iff.mp hpre
      obtain ⟨r, hr⟩ := (startsWith_iff t p).mp ht
      have hp : p = String.mk (a ++ ['/']) := by
        rw [← ha]
      have ht2 : t = String.mk (a ++ '/' :: r) := by
        have : t.data = a ++ '/' :: r := by
          rw [hr, ha]
          simp
        rw [← this]
      rw [hp, ht2]
      exact matches_of_slash_boundary a r
  refine ⟨hmatch, ?_⟩
  intro bus self payload senderId hvp hvt hne
  rw [EventBus.applyEffects_connect bus self p hvp]
  obtain ⟨r, hpub, _, _, hbroadcast⟩ := EventBus.publish_reaches_stored bus
    (bus.newSubscription (p ++ "**") (self.m_pluginId ++ ".demo") none {}) t payload
    senderId hvt hmatch (fun h => hne h.symm) rfl
  exact ⟨r, hpub, hbroadcast⟩

theorem demo_pattern_covers_segment_boundary_witness :
    ("orders/" = "" ∨ "orders/".data.getLast? = some '/') ∧
      startsWith "orders/created" "orders/" = true ∧
      «matches» ("orders/" ++ "**") "orders/created" = true :=
  ⟨Or.inr (by decide), by decide,
   (demo_pattern_covers_segment_boundary "orders/" "orders/created" (Or.inr (by decide))
      (by decide)).1⟩

/-- C17: the self-publish rule of the bus never protects DemoService. For every plugin
id, the subscriber id that `connectToEventBus` registers (the plugin id followed by
".demo") differs from the plugin id, so the rule does not filter that subscription for
an event sent by the plugin id: when the bus accepts pattern and topic and the pattern
matches, the publish notifies the subscription (it counts toward `notifiedCount`) and
emits the broadcast. The service discards that event at its sender check: the topic
passes the prefix check, the state is unchanged and nothing is emitted, while the same
event from any other sender is recorded. -/
theorem demo_subscriber_not_self_filtered (self : DemoService) (bus : EventBus)
    (topicPrefix topic now : String) (payload : QVariantMap)
    (hp : validPattern (topicPrefix ++ "**") = true) (ht : validTopic topic = true)
    (hm : «matches» (topicPrefix ++ "**") topic = true)
    (hsw : startsWith topic topicPrefix = true) :
    self.m_pluginId ++ ".demo" ≠ self.m_pluginId ∧
      (self.connectToEventBus topicPrefix).2 =
        [Effect.connectEventPublished,
         Effect.busSubscribeSimple (topicPrefix ++ "**") (self.m_pluginId ++ ".demo")] ∧
      EventBus.selfFiltered
        (bus.newSubscription (topicPrefix ++ "**") (self.m_pluginId ++ ".demo") none {})
        self.m_pluginId = false ∧
      (∃ r, (bus.applyEffects (self.connectToEventBus topicPrefix).2).publish topic payload
            self.m_pluginId = Except.ok r ∧
          bus.newSubscription (topicPrefix ++ "**") (self.m_pluginId ++ ".demo") none {} ∈
            r.notified ∧
          1 ≤ r.notifiedCount ∧
          EventBus.Delivery.broadcast
            { topic := topic, payload := payload, senderId := self.m_pluginId } ∈
            r.deliveries) ∧
      (self.connectToEventBus topicPrefix).1.onEventReceived now topic payload
          self.m_pluginId = ((self.connectToEventBus topicPrefix).1, []) ∧
      ∀ senderId, senderId ≠ self.m_pluginId →
        ((self.connectToEventBus topicPrefix).1.onEventReceived now topic payload
          senderId).2 = [Effect.emitMessagesChanged] := by
  have hne := append_demo_ne self.m_pluginId
  refine ⟨hne, rfl, ?_, ?_, ?_, ?_⟩
  · simp [EventBus.selfFiltered, EventBus.newSubscription, hne]
  · rw [EventBus.applyEffects_connect bus self topicPrefix hp]
    exact EventBus.publish_reaches_stored bus _ topic payload self.m_pluginId ht hm hne rfl
  · unfold DemoService.onEventReceived
    have hpre : (self.connectToEventBus topicPrefix).1.m_topicPrefix = topicPrefix := rfl
    have hid : (self.connectToEventBus topicPrefix).1.m_pluginId = self.m_pluginId := rfl
    rw [hpre, hid, hsw]
    simp
  · intro senderId hsender
    rw [DemoService.onEventReceived_accepted (self.connectToEventBus topicPrefix).1 now
      topic payload senderId hsw hsender]

theorem demo_subscriber_not_self_filtered_witness :
    validPattern ("orders/" ++ "**") = true ∧ validTopic "orders/created" = true ∧
      «matches» ("orders/" ++ "**") "orders/created" = true ∧
      startsWith "orders/created" "orders/" = true ∧
      (DemoService.new "com.yourco.orders").m_pluginId ++ ".demo" ≠
        (DemoService.new "com.yourco.orders").m_pluginId :=
  ⟨by decide, by decide, by decide, by decide,
   (demo_subscriber_not_self_filtered (DemoService.new "com.yourco.orders")
      EventBus.empty "orders/" "orders/created" "12:00:00.000" [] (by decide) (by decide)
      (by decide) (by decide)).1⟩

end orders
